import Mathlib

/-!
Verification of the comfyui-fastapi GPU task dispatcher against its
natural-language specification.  Each Python function that a claim touches is
shallowly embedded as an executable Lean definition; dynamic (JSON-ish) Python
values are modelled by the `Json` inductive, Python exceptions that escape a
function by an `Option`/`Except` result, and Python truthiness, `in`,
iteration, `os.path.splitext`, `urllib.parse.parse_qs` by explicit helper
functions.  Numeric payloads are modelled as integers and wall-clock times and
delays as rationals.
-/

/-- Dynamic (JSON-like) Python value: `None`, `bool`, number, `str`, `list`,
`dict` (association list in insertion order, keys unique in practice). -/
inductive Json where
  | null
  | bool (b : Bool)
  | num (n : Int)
  | str (s : String)
  | arr (elems : List Json)
  | obj (fields : List (String × Json))

/-- Python truthiness of a value: `None`, `False`, `0`, `""`, `[]`, `{}` are
falsy, everything else truthy. -/
def Json.truthy : Json → Bool
  | .null => false
  | .bool b => b
  | .num n => n != 0
  | .str s => s != ""
  | .arr xs => !xs.isEmpty
  | .obj fs => !fs.isEmpty

/-- `dict.get(k)` on an association list: first binding wins, absent key is
`None`; use `.getD` at call sites for `dict.get(k, default)`. -/
def jget? (fields : List (String × Json)) (k : String) : Option Json :=
  List.lookup k fields

/-- Python's ASCII whitespace (what `str.strip()` removes on the inputs at
hand; the exotic unicode space classes are not modelled). -/
def pyIsSpace (c : Char) : Bool :=
  c == ' ' || c == '\t' || c == '\n' || c == '\r' || c == '\x0b' || c == '\x0c'

/-- `str.strip()`. -/
def pyStrip (s : String) : String :=
  ⟨((s.data.dropWhile pyIsSpace).reverse.dropWhile pyIsSpace).reverse⟩

/-- Does `pat` occur as a contiguous sublist? (Python substring search.) -/
def hasSub (pat : List Char) : List Char → Bool
  | [] => pat.isEmpty
  | c :: rest => pat.isPrefixOf (c :: rest) || hasSub pat rest

/-- Substring test used for Python `needle in s` on strings. -/
def strContains (s pat : String) : Bool :=
  hasSub pat.data s.data

/-- Python `s.split(sep)` for a one-character separator (keeps empties). -/
def splitOnChar (sep : Char) : List Char → List (List Char)
  | [] => [[]]
  | c :: rest =>
    let r := splitOnChar sep rest
    if c == sep then [] :: r
    else
      match r with
      | [] => [[c]]
      | h :: t => (c :: h) :: t

/-- Python `s.split(sep, 1)`: the part before the first separator and the
rest, or `none` when the separator does not occur. -/
def splitFirst (sep : Char) : List Char → Option (List Char × List Char)
  | [] => none
  | c :: rest =>
    if c == sep then some ([], rest)
    else
      match splitFirst sep rest with
      | none => none
      | some (a, b) => some (c :: a, b)

/-- `str.startswith`. -/
def strStarts (s pat : String) : Bool :=
  pat.data.isPrefixOf s.data

/-- `str.lower()` (ASCII). -/
def pyLower (s : String) : String :=
  ⟨s.data.map Char.toLower⟩

/-- Python `needle in container` for a string needle: key test on dicts,
membership on lists, substring on strings; anything else raises `TypeError`
(`none`). -/
def pyIn (needle : String) (j : Json) : Option Bool :=
  match j with
  | .obj fields => some (fields.any (fun p => p.1 == needle))
  | .arr xs => some (xs.any (fun x => match x with | .str s => s == needle | _ => false))
  | .str s => some (strContains s needle)
  | _ => none

/-- Python iteration (and `len`): lists yield elements, strings yield
one-character strings, dicts yield keys; other values raise `TypeError`. -/
def jIter : Json → Option (List Json)
  | .arr xs => some xs
  | .str s => some (s.toList.map (fun c => .str (String.singleton c)))
  | .obj fs => some (fs.map (fun p => .str p.1))
  | _ => none

/-- Python `str()` of a value as used inside f-strings.  Containers are
rendered only approximately (their repr never feeds a branch the claims
exercise); scalars are exact. -/
def Json.pyStr : Json → String
  | .null => "None"
  | .bool true => "True"
  | .bool false => "False"
  | .num n => toString n
  | .str s => s
  | .arr _ => "[...]"
  | .obj _ => "\x7b...\x7d"

/-- Python `a or b` on strings (the empty string is falsy). -/
def strOr (a b : String) : String := if a == "" then b else a

/-- Extension part of `os.path.splitext` (posix rules): the suffix from the
last dot that lies after the last path separator, provided the basename has a
non-dot character before that dot (leading dots of the basename never start an
extension). -/
def splitextExt (p : String) : String :=
  let base := (p.toList.reverse.takeWhile (fun c => c ≠ '/')).reverse
  let rest := base.dropWhile (fun c => c == '.')
  if rest.any (fun c => c == '.') then
    ⟨'.' :: (rest.reverse.takeWhile (fun c => c ≠ '.')).reverse⟩
  else ""

/-- `urllib.parse.unquote_plus` percent decoding, modelled per escape: `+`
becomes a space, `%hh` the character of that byte (multi-byte UTF-8 sequences
are not reassembled; the harvested filenames never feed a decoded byte into a
branch). -/
def hexVal? (c : Char) : Option Nat :=
  if '0' ≤ c ∧ c ≤ '9' then some (c.toNat - 48)
  else if 'a' ≤ c ∧ c ≤ 'f' then some (c.toNat - 87)
  else if 'A' ≤ c ∧ c ≤ 'F' then some (c.toNat - 55)
  else none

def pctDecode : List Char → List Char
  | [] => []
  | '%' :: a :: b :: rest =>
    match hexVal? a, hexVal? b with
    | some x, some y => Char.ofNat (16 * x + y) :: pctDecode rest
    | _, _ => '%' :: pctDecode (a :: b :: rest)
  | c :: rest => c :: pctDecode rest
termination_by cs => cs.length

def unquotePlus (s : String) : String :=
  ⟨pctDecode (s.toList.map (fun c => if c == '+' then ' ' else c))⟩

/-- Query string of a URL as `urllib.parse.urlparse` extracts it: the part
after the first `?`, with any fragment (from the first `#`) removed first. -/
def pyQuery (s : String) : String :=
  match splitFirst '?' (s.data.takeWhile (fun c => c ≠ '#')) with
  | none => ""
  | some (_, q) => ⟨q⟩

/-- `urllib.parse.parse_qsl` with default arguments: split on `&`, keep only
fields with a `=` (maxsplit 1) and a non-empty value, unquote names and
values. -/
def parseQsl (q : String) : List (String × String) :=
  (splitOnChar '&' q.data).filterMap (fun nv =>
    if nv.isEmpty then none
    else match splitFirst '=' nv with
    | none => none
    | some (x, v) =>
      if v.isEmpty then none else some (unquotePlus ⟨x⟩, unquotePlus ⟨v⟩))

/-! ## result_node_service.py — the harvest of output artifacts -/

/-- One entry of the `upload_tasks` list the result handlers build:
`{'type', 'filename', 'subfolder', 'folder_type', 'path', 'node_id'}`.
`filename`, `subfolder` and `folder_type` keep whatever JSON value the history
held. -/
structure UploadTask where
  kind : String
  filename : Json
  subfolder : Json
  folder_type : Json
  path : String
  node_id : String

/-- The destination path every handler builds:
`f"{date}/{message_id}_{seqtag}{len(upload_tasks)}{ext}"`, where `seqtag` is
the handler-specific middle part (empty for SaveImage, `"preview_"`,
`"vhs_"`, `"vhs_widget_"`, `"vhs_preview_"`, `"video_"` or `"audio_"`) and the
sequence number is the length of `upload_tasks` at append time.  The date is
re-read per append in the source; it is one value here. -/
def mkPath (date mid tag : String) (n : Nat) (ext : String) : String :=
  date ++ "/" ++ mid ++ "_" ++ tag ++ Nat.repr n ++ ext

/-- SaveImageResultHandler: one `images[]` entry.  A missing `filename` key
(KeyError) or a non-dict entry (TypeError) is caught by the per-entry
`except`/`continue`. -/
def saveImageEntry (node_id mid date : String) (ts : List UploadTask) (info : Json) : List UploadTask :=
  match info with
  | .obj fs =>
    match jget? fs "filename" with
    | some fn =>
      let subfolder := (jget? fs "subfolder").getD (.str "")
      let folder_type := (jget? fs "type").getD (.str "output")
      ts ++ [⟨"image", fn, subfolder, folder_type, mkPath date mid "" ts.length ".png", node_id⟩]
    | none => ts
  | _ => ts

/-- SaveImageResultHandler.collect_results.  `none` models an exception that
escapes the handler (e.g. `len(images)`/iteration over a non-sized value, or
subscripting a non-dict output whose `in` test succeeded). -/
def saveImageCollect (node_id : String) (node_output : Json) (mid date : String)
    (ts : List UploadTask) : Option (List UploadTask) :=
  match pyIn "images" node_output with
  | none => none
  | some false => some ts
  | some true =>
    match node_output with
    | .obj fs =>
      match jget? fs "images" with
      | some images =>
        match jIter images with
        | none => none
        | some elems => some (elems.foldl (saveImageEntry node_id mid date) ts)
      | none => none
    | _ => none

/-- PreviewImageResultHandler: one `images[]` entry (`folder_type` defaults to
`"temp"`, path middle part `"preview_"`). -/
def previewImageEntry (node_id mid date : String) (ts : List UploadTask) (info : Json) : List UploadTask :=
  match info with
  | .obj fs =>
    match jget? fs "filename" with
    | some fn =>
      let subfolder := (jget? fs "subfolder").getD (.str "")
      let folder_type := (jget? fs "type").getD (.str "temp")
      ts ++ [⟨"image", fn, subfolder, folder_type, mkPath date mid "preview_" ts.length ".png", node_id⟩]
    | none => ts
  | _ => ts

/-- PreviewImageResultHandler.collect_results. -/
def previewImageCollect (node_id : String) (node_output : Json) (mid date : String)
    (ts : List UploadTask) : Option (List UploadTask) :=
  match pyIn "images" node_output with
  | none => none
  | some false => some ts
  | some true =>
    match node_output with
    | .obj fs =>
      match jget? fs "images" with
      | some images =>
        match jIter images with
        | none => none
        | some elems => some (elems.foldl (previewImageEntry node_id mid date) ts)
      | none => none
    | _ => none

/-- SaveVideoResultHandler: one entry of an `images`/`videos`/`gifs` list.
Non-dict entries and falsy filenames are skipped explicitly by the source;
`os.path.splitext` on a non-string filename raises and is caught per entry. -/
def saveVideoEntry (node_id mid date : String) (ts : List UploadTask) (v : Json) : List UploadTask :=
  match v with
  | .obj fs =>
    match jget? fs "filename" with
    | some fn =>
      if fn.truthy then
        match fn with
        | .str fname =>
          let subfolder := (jget? fs "subfolder").getD (.str "")
          let folder_type := (jget? fs "type").getD (.str "output")
          let ext := strOr (splitextExt fname) ".mp4"
          ts ++ [⟨"video", fn, subfolder, folder_type, mkPath date mid "video_" ts.length ext, node_id⟩]
        | _ => ts
      else ts
    | none => ts
  | _ => ts

/-- The `for field in ["images", "videos", "gifs"]` loop of
SaveVideoResultHandler.collect_results.  A present field that is not a list is
skipped with a warning; after processing a list field the source returns early
when the (job-global) `upload_tasks` list is non-empty.  The `Bool` reports
whether that early return fired. -/
def saveVideoStep (node_id mid date : String) (node_output : Json) (f : String)
    (ts : List UploadTask) : Option (List UploadTask × Bool) :=
  match pyIn f node_output with
  | none => none
  | some false => some (ts, false)
  | some true =>
    match node_output with
    | .obj os =>
      match jget? os f with
      | some (.arr vids) =>
        some (vids.foldl (saveVideoEntry node_id mid date) ts,
              !(vids.foldl (saveVideoEntry node_id mid date) ts).isEmpty)
      | some _ => some (ts, false)
      | none => none
    | _ => none

def saveVideoLoop (node_id mid date : String) (node_output : Json) :
    List String → List UploadTask → Option (List UploadTask × Bool)
  | [], ts => some (ts, false)
  | f :: fs, ts =>
    match saveVideoStep node_id mid date node_output f ts with
    | none => none
    | some (ts1, true) => some (ts1, true)
    | some (ts1, false) => saveVideoLoop node_id mid date node_output fs ts1

/-- SaveVideoResultHandler.collect_results: field loop, then the
`filename_prefix` fallback that synthesises `f"{prefix}_00001.mp4"` when the
node contributed no task and the early return did not fire. -/
def saveVideoCollect (node_id : String) (node_data node_output : Json) (mid date : String)
    (ts : List UploadTask) : Option (List UploadTask) :=
  match saveVideoLoop node_id mid date node_output ["images", "videos", "gifs"] ts with
  | none => none
  | some (ts', true) => some ts'
  | some (ts', false) =>
    if (ts'.filter (fun t => t.node_id == node_id)).length == 0 then
      match node_data with
      | .obj nd =>
        match (jget? nd "inputs").getD (.obj []) with
        | .obj inputs =>
          let fpfx := (jget? inputs "filename_prefix").getD (.str "")
          if fpfx.truthy then
            some (ts' ++ [⟨"video", .str (fpfx.pyStr ++ "_00001" ++ ".mp4"), .str "", .str "output",
                  mkPath date mid "video_" ts'.length ".mp4", node_id⟩])
          else some ts'
        | _ => none
      | _ => none
    else some ts'

/-- SaveAudioResultHandler: one `audio[]`/`audios[]` entry. -/
def saveAudioEntry (node_id mid date : String) (ts : List UploadTask) (info : Json) : List UploadTask :=
  match info with
  | .obj fs =>
    match jget? fs "filename" with
    | some (.str fname) =>
      let subfolder := (jget? fs "subfolder").getD (.str "")
      let folder_type := (jget? fs "type").getD (.str "output")
      let ext := strOr (splitextExt fname) ".wav"
      ts ++ [⟨"audio", .str fname, subfolder, folder_type, mkPath date mid "audio_" ts.length ext, node_id⟩]
    | some _ => ts
    | none => ts
  | _ => ts

/-- SaveAudioResultHandler.collect_results: `audio`, `elif` `audios`. -/
def saveAudioCollect (node_id : String) (node_output : Json) (mid date : String)
    (ts : List UploadTask) : Option (List UploadTask) :=
  match pyIn "audio" node_output with
  | none => none
  | some true =>
    match node_output with
    | .obj fs =>
      match jget? fs "audio" with
      | some audios =>
        match jIter audios with
        | none => none
        | some elems => some (elems.foldl (saveAudioEntry node_id mid date) ts)
      | none => none
    | _ => none
  | some false =>
    match pyIn "audios" node_output with
    | none => none
    | some true =>
      match node_output with
      | .obj fs =>
        match jget? fs "audios" with
        | some audios =>
          match jIter audios with
          | none => none
          | some elems => some (elems.foldl (saveAudioEntry node_id mid date) ts)
        | none => none
      | _ => none
    | some false => some ts

/-- Parse result of `VHS_VideoCombineResultHandler._parse_url_path`. -/
structure ViewParams where
  filename : String
  subfolder : String
  ftype : String
  format : String

/-- `_parse_url_path`: `/view?…` URLs are split with urlparse + parse_qs; the
keys get defaults `""`, `""`, `"output"`, `"image/png"`.  Any exception inside
(including `.startswith` on a non-string) returns `None`. -/
def parse_url_path (url_path : Json) : Option ViewParams :=
  match url_path with
  | .str s =>
    if strStarts s "/view?" then
      let pairs := parseQsl (pyQuery s)
      let first := fun (k d : String) => (((pairs.filter (fun p => p.1 == k)).map Prod.snd).headD d)
      some ⟨first "filename" "", first "subfolder" "", first "type" "output", first "format" "image/png"⟩
    else none
  | _ => none

/-- The `if 'mp4' in format_type … elif … else '.mp4'` extension inference of
the VHS gifs loop. -/
def vhsInferExt (fmtS : String) : String :=
  if strContains fmtS "mp4" then ".mp4"
  else if strContains fmtS "webm" then ".webm"
  else if strContains fmtS "gif" then ".gif"
  else ".mp4"

/-- The `if 'mp4' in format_type … elif 'webm' … else '.png'` extension
inference of the VHS preview-widget branch. -/
def vhsPrevInferExt (fmtS : String) : String :=
  if strContains fmtS "mp4" then ".mp4"
  else if strContains fmtS "webm" then ".webm"
  else ".png"

/-- VHS_VideoCombine: one `gifs[]` entry. -/
def vhsGifEntry (node_id mid date : String) (ts : List UploadTask) (g : Json) : List UploadTask :=
  match g with
  | .obj fs =>
    match jget? fs "filename" with
    | none => ts
    | some fn =>
      let subfolder := (jget? fs "subfolder").getD (.str "")
      let folder_type := (jget? fs "type").getD (.str "output")
      let fmt := (jget? fs "format").getD (.str "image/gif")
      if fmt.truthy then
        match fmt with
        | .str fmtS =>
          if strStarts fmtS "image" || strStarts fmtS "video" then
            let kind := if strStarts fmtS "video" then "video" else "image"
            match fn with
            | .str fname =>
              let ext := strOr (splitextExt fname) (vhsInferExt fmtS)
              ts ++ [⟨kind, fn, subfolder, folder_type, mkPath date mid "vhs_" ts.length ext, node_id⟩]
            | _ => ts
          else ts
        | _ => ts
      else ts
  | _ => ts

/-- VHS_VideoCombine: the `preview`-typed widget body. -/
def vhsPreviewPart (node_id mid date : String) (ts : List UploadTask) (wval : Json) : List UploadTask :=
  match wval with
  | .obj vfs =>
    if vfs.any (fun p => p.1 == "params") then
      match jget? vfs "params" with
      | some (.obj ps) =>
        match (jget? ps "format").getD (.str "") with
        | .str fmtS =>
          if strStarts fmtS "image" || strStarts fmtS "video" then
            let fn := (jget? ps "filename").getD .null
            if fn.truthy then
              match fn with
              | .str fname =>
                let kind := if strStarts fmtS "video" then "video" else "image"
                let ext := strOr (splitextExt fname) (vhsPrevInferExt fmtS)
                ts ++ [⟨kind, fn, (jget? ps "subfolder").getD (.str ""),
                        (jget? ps "type").getD (.str "output"),
                        mkPath date mid "vhs_preview_" ts.length ext, node_id⟩]
              | _ => ts
            else ts
          else ts
        | _ => ts
      | some _ => ts
      | none => ts
    else ts
  | _ => ts

/-- VHS_VideoCombine: one `widgets[]` entry (`image` or `preview` typed). -/
def vhsWidgetEntry (node_id mid date : String) (ts : List UploadTask) (w : Json) : List UploadTask :=
  match w with
  | .obj wfs =>
    let wtype := (jget? wfs "type").getD .null
    let wval := (jget? wfs "value").getD .null
    match wtype with
    | .str "image" =>
      if wval.truthy then
        match parse_url_path wval with
        | some parsed =>
          if parsed.filename != "" then
            if parsed.ftype == "output" then
              let ext := strOr (splitextExt parsed.filename) ".png"
              ts ++ [⟨"image", .str parsed.filename, .str parsed.subfolder, .str parsed.ftype,
                      mkPath date mid "vhs_widget_" ts.length ext, node_id⟩]
            else ts
          else ts
        | none => ts
      else ts
    | .str "preview" =>
      if wval.truthy then vhsPreviewPart node_id mid date ts wval else ts
    | _ => ts
  | _ => ts

/-- VHS_VideoCombine `gifs` phase (`if "gifs" in node_output`). -/
def vhsGifsPhase (node_id mid date : String) (node_output : Json)
    (ts : List UploadTask) : Option (List UploadTask) :=
  match pyIn "gifs" node_output with
  | none => none
  | some false => some ts
  | some true =>
    match node_output with
    | .obj fs =>
      match jget? fs "gifs" with
      | some gifs =>
        match jIter gifs with
        | none => none
        | some elems => some (elems.foldl (vhsGifEntry node_id mid date) ts)
      | none => none
    | _ => none

/-- VHS_VideoCombine widgets phase (`if "widgets" in node_output and
isinstance(node_output["widgets"], list)`). -/
def vhsWidgetsPhase (node_id mid date : String) (node_output : Json)
    (ts : List UploadTask) : Option (List UploadTask) :=
  match pyIn "widgets" node_output with
  | none => none
  | some false => some ts
  | some true =>
    match node_output with
    | .obj fs =>
      match jget? fs "widgets" with
      | some (.arr ws) => some (ws.foldl (vhsWidgetEntry node_id mid date) ts)
      | some _ => some ts
      | none => none
    | _ => none

/-- The `'mp4' in format_str or 'h264' in …' elif …` chain of the VHS fallback
(Python `in`, so a non-sized format value raises). -/
def vhsFallbackExt (fmt : Json) : Option String :=
  match pyIn "mp4" fmt with
  | none => none
  | some true => some ".mp4"
  | some false =>
    match pyIn "h264" fmt with
    | none => none
    | some true => some ".mp4"
    | some false =>
      match pyIn "webm" fmt with
      | none => none
      | some true => some ".webm"
      | some false =>
        match pyIn "gif" fmt with
        | none => none
        | some true => some ".gif"
        | some false => some ".mp4"

/-- VHS_VideoCombine fallback: only when the node contributed no task so far,
`filename_prefix` is truthy and `save_output` (default `True`) is truthy,
synthesise `f"{filename_prefix}00001{ext}"`. -/
def vhsFallback (node_id : String) (node_data : Json) (mid date : String)
    (ts : List UploadTask) : Option (List UploadTask) :=
  if (ts.filter (fun t => t.node_id == node_id)).length == 0 then
    match node_data with
    | .obj nd =>
      match (jget? nd "inputs").getD (.obj []) with
      | .obj inputs =>
        let fpfx := (jget? inputs "filename_prefix").getD (.str "")
        if fpfx.truthy && ((jget? inputs "save_output").getD (.bool true)).truthy then
          match vhsFallbackExt ((jget? inputs "format").getD (.str "video/h264-mp4")) with
          | none => none
          | some ext =>
            some (ts ++ [⟨"video", .str (fpfx.pyStr ++ "00001" ++ ext), .str "", .str "output",
                   mkPath date mid "vhs_" ts.length ext, node_id⟩])
        else some ts
      | _ => none
    | _ => none
  else some ts

/-- VHS_VideoCombineResultHandler.collect_results: gifs, widgets, fallback. -/
def vhsCollect (node_id : String) (node_data node_output : Json) (mid date : String)
    (ts : List UploadTask) : Option (List UploadTask) :=
  match vhsGifsPhase node_id mid date node_output ts with
  | none => none
  | some ts1 =>
    match vhsWidgetsPhase node_id mid date node_output ts1 with
    | none => none
    | some ts2 => vhsFallback node_id node_data mid date ts2

/-- The five built-in result handlers, in ResultNodeService registration
order. -/
inductive ResultHandler where
  | saveImage
  | previewImage
  | saveVideo
  | saveAudio
  | vhsVideoCombine

/-- ResultNodeService.get_handler: first handler whose `can_handle` matches
`node_data.get("class_type")`; `can_handle` on a non-dict `node_data` raises
(`none`); no match is `some none`. -/
def getHandler (node_data : Json) : Option (Option ResultHandler) :=
  match node_data with
  | .obj fs =>
    match jget? fs "class_type" with
    | some (.str "SaveImage") => some (some .saveImage)
    | some (.str "PreviewImage") => some (some .previewImage)
    | some (.str "SaveVideo") => some (some .saveVideo)
    | some (.str "SaveAudio") => some (some .saveAudio)
    | some (.str "VHS_VideoCombine") => some (some .vhsVideoCombine)
    | _ => some none
  | _ => none

def runHandler : ResultHandler → String → Json → Json → String → String →
    List UploadTask → Option (List UploadTask)
  | .saveImage, nid, _, nout, mid, date, ts => saveImageCollect nid nout mid date ts
  | .previewImage, nid, _, nout, mid, date, ts => previewImageCollect nid nout mid date ts
  | .saveVideo, nid, nd, nout, mid, date, ts => saveVideoCollect nid nd nout mid date ts
  | .saveAudio, nid, _, nout, mid, date, ts => saveAudioCollect nid nout mid date ts
  | .vhsVideoCombine, nid, nd, nout, mid, date, ts => vhsCollect nid nd nout mid date ts

/-- The `for node_id, node_output in outputs.items()` loop of
ResultNodeService.collect_workflow_results. -/
def collectLoop (prompt : List (String × Json)) (mid date : String) :
    List (String × Json) → List UploadTask → Option (List UploadTask)
  | [], ts => some ts
  | (node_id, node_output) :: rest, ts =>
    let node_data := (jget? prompt node_id).getD (.obj [])
    match getHandler node_data with
    | none => none
    | some none => collectLoop prompt mid date rest ts
    | some (some h) =>
      match runHandler h node_id node_data node_output mid date ts with
      | none => none
      | some ts' => collectLoop prompt mid date rest ts'

/-- ResultNodeService.collect_workflow_results: iterate the engine history's
`outputs` mapping only (nodes of the submitted graph that are absent from
`outputs` are never visited), dispatching each present node to its handler.
`none` models an exception escaping the harvest. -/
def collect_workflow_results (prompt outputs : List (String × Json)) (mid date : String) :
    Option (List UploadTask) :=
  collectLoop prompt mid date outputs []

/-! ## processor_registry.py -/

/-- ProcessorRegistry._determine_processor_type: empty name defaults to the
ComfyUI processor, exactly `"faceswap"` selects the face-swap (facefusion)
processor, `comfyui_*`-prefixed and the four built-in names select ComfyUI,
everything else falls through to ComfyUI with a warning. -/
def determine_processor_type (workflow_name : String) : String :=
  if workflow_name == "" then "comfyui"
  else if workflow_name == "faceswap" then "facefusion"
  else if strStarts workflow_name "comfyui_"
      || ["basic_generation", "text_to_image", "image_to_image", "inpainting"].contains workflow_name
    then "comfyui"
  else "comfyui"

/-! ## utils/workflow_filter.py -/

/-- WorkflowFilter._parse_workflow_list: falsy string gives `[]`, else split
on commas, strip each part, drop empties. -/
def parse_workflow_list (s : String) : List String :=
  if s == "" then []
  else (((splitOnChar ',' s.data).map (fun w => pyStrip ⟨w⟩)).filter (fun w => w != ""))

/-- WorkflowFilter.is_workflow_allowed.  `fnmatchFn` stands for the stdlib
`fnmatch.fnmatch` (outside this repository); the empty workflow name is
replaced by `"default"`; an empty allow-list or one containing `"*"` allows
everything, otherwise any matching pattern allows. -/
def is_workflow_allowed (allowed : List String) (fnmatchFn : String → String → Bool)
    (workflow_name : String) : Bool :=
  let wn := if workflow_name == "" then "default" else workflow_name
  if allowed.isEmpty || allowed.contains "*" then true
  else allowed.any (fun pat => fnmatchFn wn pat)

/-! ## consumer/queue_consumer.py -/

/-- The three Redis lists of PRIORITY_QUEUES, highest priority first; the
list head is the `lpush` side, so `rpop` takes the last element (oldest). -/
structure RedisQueues (α : Type) where
  vip : List α
  normal : List α
  guest : List α

def lpush {α : Type} (x : α) (q : List α) : List α := x :: q

def rpop {α : Type} (q : List α) : Option α × List α :=
  match q.getLast? with
  | none => (none, q)
  | some x => (some x, q.dropLast)

/-- QueueConsumer.fetch_task: one tick tries an atomic `rpop` on vip, then
normal, then guest, returning the first hit. -/
def fetch_task {α : Type} (q : RedisQueues α) : Option α × RedisQueues α :=
  match rpop q.vip with
  | (some x, v') => (some x, { q with vip := v' })
  | (none, _) =>
    match rpop q.normal with
    | (some x, n') => (some x, { q with normal := n' })
    | (none, _) =>
      match rpop q.guest with
      | (some x, g') => (some x, { q with guest := g' })
      | (none, _) => (none, q)

/-! ## services/image_service.py — download retry loop -/

/-- Outcome of one `requests.get`/`session.get` attempt.  `errStatus` is an
HTTPError from `raise_for_status` (404, 500, …); `errNet` a timeout or
connection error.  Both are subclasses of the one exception class the retry
loop catches. -/
inductive HttpOutcome where
  | ok
  | errStatus (code : Nat)
  | errNet
deriving DecidableEq

def HttpOutcome.isOk : HttpOutcome → Bool
  | .ok => true
  | _ => false

/-- What one call of the retry loop did: whether it succeeded, how many
attempts it made, and which back-off delays (seconds) it slept. -/
structure DownloadTrace where
  success : Bool
  attempts : Nat
  delays : List ℚ
deriving DecidableEq

/-- The `for attempt in range(max_retries + 1)` loop shared by
ImageService.download_image and download_image_async: `max_retries = 3`,
`base_delay = 1`, delay `base_delay * 2 ** attempt`; every caught exception
(any `RequestException`/`ClientError`, 404 included) is retried alike, and the
last attempt re-raises. -/
def retryLoop (respond : Nat → HttpOutcome) : List Nat → Nat → List ℚ → DownloadTrace
  | [], att, ds => ⟨false, att, ds.reverse⟩
  | i :: rest, att, ds =>
    if (respond i).isOk then ⟨true, att + 1, ds.reverse⟩
    else if rest.isEmpty then ⟨false, att + 1, ds.reverse⟩
    else retryLoop respond rest (att + 1) (((1 : ℚ) * 2 ^ i) :: ds)

/-- ImageService.download_image retry behaviour (attempts 0..3). -/
def download_image_trace (respond : Nat → HttpOutcome) : DownloadTrace :=
  retryLoop respond [0, 1, 2, 3] 0 []

/-- ImageService.download_image_async retry behaviour: identical constants
(max_retries 3, base_delay 1 second, exponential factor 2). -/
def download_image_async_trace (respond : Nat → HttpOutcome) : DownloadTrace :=
  retryLoop respond [0, 1, 2, 3] 0 []

/-- First attempt index within 0..3 that would succeed. -/
def firstOkWithin (respond : Nat → HttpOutcome) : Option Nat :=
  [0, 1, 2, 3].find? (fun i => (respond i).isOk)

/-! ## consumer/task_schema.py — normalize_queue_task -/

/-- `value.get(k)` where the receiver may not be a dict: Python raises
`AttributeError` then (`none`); a missing key is `None`. -/
def jAttrGet (j : Json) (k : String) : Option Json :=
  match j with
  | .obj fs => some ((jget? fs k).getD .null)
  | _ => none

/-- Python `a or b` on values: the first truthy operand, else the last. -/
def pyOr (a b : Json) : Json := if a.truthy then a else b

/-- The `workflowName or workflow or workflow_name or params.workflowName or
params.workflow_name or "default"` chain, with `raw.get("params", {})`
evaluated lazily at the two dotted steps. -/
def normWorkflow (raw : List (String × Json)) : Option Json :=
  let a := (jget? raw "workflowName").getD .null
  if a.truthy then some a else
  let b := (jget? raw "workflow").getD .null
  if b.truthy then some b else
  let c := (jget? raw "workflow_name").getD .null
  if c.truthy then some c else
  match jAttrGet ((jget? raw "params").getD (.obj [])) "workflowName" with
  | none => none
  | some d =>
    if d.truthy then some d else
      match jAttrGet ((jget? raw "params").getD (.obj [])) "workflow_name" with
      | none => none
      | some e => if e.truthy then some e else some (.str "default")

/-- The `callbackUrl or callback_url or params.callbackUrl` chain. -/
def normCallback (raw : List (String × Json)) : Option Json :=
  let a := (jget? raw "callbackUrl").getD .null
  if a.truthy then some a else
  let b := (jget? raw "callback_url").getD .null
  if b.truthy then some b else
  jAttrGet ((jget? raw "params").getD (.obj [])) "callbackUrl"

/-- `params = raw.get("params", {})`, wrapped as `{"input_data": params}`
when `"input_data" not in params` (Python `in`, so a non-container raises). -/
def normParams (raw : List (String × Json)) : Option Json :=
  let params := (jget? raw "params").getD (.obj [])
  match pyIn "input_data" params with
  | none => none
  | some true => some params
  | some false => some (.obj [("input_data", params)])

/-- task_schema.normalize_queue_task: canonicalise a producer-side record.
`now` stands for `datetime.utcnow().isoformat()`; the raw record is kept
verbatim under `"_raw"`. -/
def normalize_queue_task (raw : List (String × Json)) (now : String) :
    Option (List (String × Json)) :=
  match normWorkflow raw, normParams raw, normCallback raw with
  | some workflow, some params, some callback =>
    some [("taskId", pyOr ((jget? raw "taskId").getD .null)
             (pyOr ((jget? raw "task_id").getD .null) ((jget? raw "id").getD .null))),
          ("userId", pyOr ((jget? raw "userId").getD .null) ((jget? raw "user_id").getD .null)),
          ("priority", (jget? raw "priority").getD (.str "normal")),
          ("workflow", workflow),
          ("workflowName", workflow),
          ("params", params),
          ("callbackUrl", callback),
          ("createdAt", pyOr ((jget? raw "createdAt").getD .null)
             (pyOr ((jget? raw "created_at").getD .null) (.str now))),
          ("_raw", .obj raw)]
  | _, _, _ => none

/-- The record with its `"_raw"` diagnostics field removed. -/
def eraseRaw (l : List (String × Json)) : List (String × Json) :=
  l.filter (fun p => p.1 != "_raw")

/-- Number of fields of the record's `"_raw"` object (a projection that
separates the outputs of one and two normalisation passes). -/
def rawObjSize (l : List (String × Json)) : Nat :=
  match jget? l "_raw" with
  | some (.obj fs) => fs.length
  | _ => 0

/-- Either absent (`None`) or truthy — the shape the canonical id fields have
on every record a producer can actually send. -/
def truthyOrNone (v : Json) : Bool :=
  match v with
  | .null => true
  | _ => v.truthy

/-! ## comfyui_api.py — wait_for_completion progress rate limiting -/

/-- One progress callback that wait_for_completion actually delivered:
its wall-clock time, `data.value` and `data.max`. -/
structure ProgressEvent where
  t : ℚ
  value : Int
  max : Int
deriving DecidableEq

/-- One WebSocket message as the loop classifies it: an `executing` event, a
`progress` event with numeric payload, or anything else (unknown type,
malformed JSON, binary frame): logged and skipped. -/
inductive WsMsg where
  | executing (pid : Option String) (node : Option String)
  | progress (value : Int) (max : Int)
  | other
deriving DecidableEq

structure TimedMsg where
  t : ℚ
  msg : WsMsg
deriving DecidableEq

/-- The `progress_value / progress_max >= 0.9` override (guarded by
`progress_max > 0`); the literal 0.9 is modelled exactly as 9/10. -/
def nearDone (v mx : Int) : Bool :=
  decide (0 < mx) && decide ((9 : ℚ) / 10 ≤ (v : ℚ) / (mx : ℚ))

/-- The message loop of ComfyUI.wait_for_completion, restricted to what it
emits: each message carries the time at which the loop handles it; the loop
stops at the terminal marker (matching prompt_id, node null) or once the
elapsed time exceeds the timeout (TimeoutError); a progress message is
forwarded when at least `progress_interval = 3` seconds passed since
`last_progress_time` or the ≥ 90 % override holds, and only then is
`last_progress_time` advanced.  `has_cb` is `task_id and progress_callback`. -/
def progress_emissions (pid : String) (start timeout : ℚ) (has_cb : Bool) :
    List TimedMsg → ℚ → List ProgressEvent
  | [], _ => []
  | m :: rest, lastT =>
    if decide (timeout < m.t - start) then []
    else
      match m.msg with
      | .executing p node =>
        if p == some pid && node == none then []
        else progress_emissions pid start timeout has_cb rest lastT
      | .progress v mx =>
        let should := decide (3 ≤ m.t - lastT) || nearDone v mx
        if should && has_cb then
          ⟨m.t, v, mx⟩ :: progress_emissions pid start timeout has_cb rest m.t
        else progress_emissions pid start timeout has_cb rest lastT
      | .other => progress_emissions pid start timeout has_cb rest lastT

/-- Relation between consecutive emitted progress callbacks: 3 seconds apart,
or the later one crossed 90 %. -/
def gapOk (a b : ProgressEvent) : Prop :=
  3 ≤ b.t - a.t ∨ (0 < b.max ∧ (9 : ℚ) / 10 ≤ (b.value : ℚ) / (b.max : ℚ))

/-- A message is the terminal marker for `pid`. -/
def isTerminal (pid : String) (m : TimedMsg) : Prop :=
  m.msg = .executing (some pid) none

/-! ## comfyui.py / task_consumer.py — status flow -/

/-- The status a callback carries (progress notes are PROCESSING). -/
inductive CbStatus where
  | processing
  | completed
  | failed
deriving DecidableEq

/-- A raised Python exception as the processor classifies it: its message and
whether it is a ConnectionRefusedError. -/
structure PyExn where
  msg : String
  isConnRefused : Bool
deriving DecidableEq

/-- Keywords of _execute_comfyui_task's connection-error sniffing over
`str(e).lower()`. -/
def conn_keywords : List String :=
  ["connection", "websocket", "refused", "timeout", "not available"]

def isConnectionError (msg : String) : Bool :=
  conn_keywords.any (fun k => strContains (pyLower msg) k)

/-- What the engine interaction (pre-processing + get_workflow_results) does
once reached: the progress callbacks it emits along the way, and its result —
the url list, or a raised exception. -/
structure EngineRun where
  progressMsgs : List String
  outcome : Except PyExn (List String)

/-- ComfyUIProcessor._execute_comfyui_task: health gate first (a failing probe
returns the SERVICE_UNAVAILABLE sentinel, modelled `.ok none`, emitting
nothing); then the run, whose ConnectionRefusedError or connection-keyword
exceptions also become the sentinel, and whose other exceptions re-raise. -/
def execute_comfyui_task (health : Bool) (run : EngineRun) :
    Except PyExn (Option (List String)) × List CbStatus :=
  if !health then (.ok none, [])
  else
    let prog := run.progressMsgs.map (fun _ => CbStatus.processing)
    match run.outcome with
    | .ok urls => (.ok (some urls), prog)
    | .error e =>
      if e.isConnRefused then (.ok none, prog)
      else if isConnectionError e.msg then (.ok none, prog)
      else (.error e, prog)

/-- ComfyUIProcessor.process: missing taskId returns None with no callback;
missing wf_json reports FAILED; the sentinel returns None without any status
update; otherwise PROCESSING is reported after the sentinel check and the
terminal COMPLETED (non-empty results) or FAILED ("No results generated.")
follows; an exception out of the execute step reports FAILED only. -/
def comfyui_process (task_id_ok wf_ok : Bool) (health : Bool) (run : EngineRun) :
    Option (List String) × List CbStatus :=
  if !task_id_ok then (none, [])
  else if !wf_ok then (none, [.failed])
  else
    match execute_comfyui_task health run with
    | (.ok none, cbs) => (none, cbs)
    | (.ok (some urls), cbs) =>
      if urls.isEmpty then (none, cbs ++ [.processing, .failed])
      else (some urls, cbs ++ [.processing, .completed])
    | (.error _, cbs) => (none, cbs ++ [.failed])

/-- The consumer's two source modes. -/
inductive ConsumerMode where
  | http
  | redis
deriving DecidableEq

/-- TaskConsumer.process_task around ComfyUIProcessor.process, with the
result_callback calls of Redis mode: send_processing before the processor is
invoked, send_success on a non-empty result, send_failure ("处理器返回空结果")
when the processor returned None — which includes the SERVICE_UNAVAILABLE
path.  In HTTP mode the consumer itself emits nothing.  The returned callback
list merges both channels in emission order. -/
def process_task (mode : ConsumerMode) (task_id_ok allowed is_test : Bool)
    (wf_ok health : Bool) (run : EngineRun) : Option (List String) × List CbStatus :=
  if !task_id_ok then (none, [])
  else if !allowed then (none, [])
  else if is_test then (some ["test"], if mode == .redis then [.completed] else [])
  else
    let pre : List CbStatus := if mode == .redis then [.processing] else []
    match comfyui_process task_id_ok wf_ok health run with
    | (some urls, cbs) => (some urls, pre ++ cbs ++ (if mode == .redis then [.completed] else []))
    | (none, cbs) => (none, pre ++ cbs ++ (if mode == .redis then [.failed] else []))

/-! ## comfyui_api.py — get_workflow_results result phase -/

/-- The per-task byte fetch and upload after harvest: each upload task's
`/view` fetch failure is caught and the task skipped (`continue`); only tasks
whose bytes arrived are uploaded; each successful upload contributes one URL
(the provider URL under cf_images, else the CDN-prefixed path).  The thread
pool's completion order is unspecified in the source; the list order here is
one admissible order. -/
def result_phase (tasks : List UploadTask) (fetch : UploadTask → Option (List Nat))
    (upload : UploadTask → Option String) (cf_images : Bool) (cdn : String) : List String :=
  let valid := tasks.filter (fun t => (fetch t).isSome)
  valid.filterMap (fun t => (upload t).map (fun u => if cf_images then u else cdn ++ "/" ++ t.path))

/-- ComfyUIProcessor.process terminal decision on the url list. -/
def terminal_status (results : List String) : CbStatus :=
  if results.isEmpty then .failed else .completed

/-! ## Proof-support predicates for the harvest -/

/-- Decimal digit list of a natural number, most significant first. -/
def decDigits (n : Nat) : List Char :=
  if _h : n < 10 then [Nat.digitChar n]
  else decDigits (n / 10) ++ [Nat.digitChar (n % 10)]
decreasing_by exact Nat.div_lt_self (by omega) (by omega)

/-- Numeric value of a digit character. -/
def digitVal (c : Char) : Nat := c.toNat - 48

/-- Value of a digit list, most significant first. -/
def digitsVal (cs : List Char) : Nat := cs.foldl (fun a c => 10 * a + digitVal c) 0

/-- Maximal digit suffix of a character list. -/
def digitSuffix (cs : List Char) : List Char := (cs.reverse.takeWhile Char.isDigit).reverse

/-- The digit block carrying the per-job sequence number inside a harvested
destination path: drop the `"{date}/{mid}_"` prelude, cut at the first dot,
take the maximal digit suffix. -/
def seqDigits (date mid : String) (path : String) : List Char :=
  digitSuffix ((path.data.drop (date.data.length + 1 + mid.data.length + 1)).takeWhile
    (fun c => c ≠ '.'))

/-- The middle tags the five handlers use in destination paths. -/
def SeqTags : List String :=
  ["", "preview_", "vhs_", "vhs_widget_", "vhs_preview_", "video_", "audio_"]

/-- A usable extension: non-empty, starting with a dot (what `splitextExt`
returns when non-empty, and what every literal default is). -/
def ExtOK (ext : String) : Prop := ∃ t, ext.data = '.' :: t

/-- A destination path carrying sequence number `n`. -/
def GoodPath (date mid : String) (n : Nat) (p : String) : Prop :=
  ∃ tag ext, tag ∈ SeqTags ∧ ExtOK ext ∧ p = mkPath date mid tag n ext

/-- Invariant of the growing `upload_tasks` list: the task at position `k`
carries sequence number `k` in its path, and its node id satisfies `P`. -/
def Harvested (date mid : String) (P : String → Prop) (ts : List UploadTask) : Prop :=
  ∀ k (hk : k < ts.length), GoodPath date mid k ((ts.get ⟨k, hk⟩).path) ∧
    P ((ts.get ⟨k, hk⟩).node_id)

/-- A per-entry step of a handler's inner loop: it either leaves the list
alone or appends exactly one task for this node, stamped with the current
length. -/
def EntryStep (nid date mid : String) (step : List UploadTask → Json → List UploadTask) : Prop :=
  ∀ ts v, step ts v = ts ∨
    ∃ t, step ts v = ts ++ [t] ∧ t.node_id = nid ∧ GoodPath date mid ts.length t.path

/-! ## Concrete inputs used by witnesses and counterexamples -/

/-- A one-node SaveImage graph. -/
def exPrompt : List (String × Json) :=
  [("9", .obj [("class_type", .str "SaveImage"), ("inputs", .obj [])])]

/-- Engine outputs for `exPrompt` with two images. -/
def exOutputs : List (String × Json) :=
  [("9", .obj [("images", .arr
      [.obj [("filename", .str "out_00001_.png"), ("subfolder", .str ""), ("type", .str "output")],
       .obj [("filename", .str "out_00002_.png"), ("subfolder", .str ""), ("type", .str "output")]])])]

/-- A graph holding one VHS_VideoCombine node with `save_output=true` and a
filename prefix. -/
def vhsPrompt : List (String × Json) :=
  [("5", .obj [("class_type", .str "VHS_VideoCombine"),
               ("inputs", .obj [("filename_prefix", .str "out"), ("save_output", .bool true),
                                ("format", .str "video/h264-mp4")])])]

/-- The upload task the VHS fallback synthesises for `vhsPrompt` when node 5
appears in outputs with an empty output object. -/
def vhsSynthTask : UploadTask :=
  ⟨"video", .str "out00001.mp4", .str "", .str "output", "20240101/t1_vhs_0.mp4", "5"⟩

/-- A quiet engine run (no progress callbacks, empty result). -/
def exRun : EngineRun := ⟨[], .ok []⟩

/-- Two harvested tasks for the result-phase witness. -/
def exTaskA : UploadTask := ⟨"image", .str "a.png", .str "", .str "output", "20240101/t1_0.png", "9"⟩

def exTaskB : UploadTask := ⟨"image", .str "b.png", .str "", .str "output", "20240101/t1_1.png", "9"⟩

/-- A /view fetch that fails for `exTaskA` and succeeds otherwise. -/
def exFetch (t : UploadTask) : Option (List Nat) :=
  if t.path == "20240101/t1_0.png" then none else some [1]

def exUpload (_t : UploadTask) : Option String := some "https://cdn.example/x"

/-- The shape of every record normalize_queue_task builds (field order as in
the source's dict literal). -/
def canonList (tid uid pri w p cb ca : Json) (raw : List (String × Json)) :
    List (String × Json) :=
  [("taskId", tid), ("userId", uid), ("priority", pri), ("workflow", w), ("workflowName", w),
   ("params", p), ("callbackUrl", cb), ("createdAt", ca), ("_raw", .obj raw)]

/-- A producer-side record for the normaliser witness. -/
def exRaw : List (String × Json) := [("taskId", .str "t"), ("createdAt", .str "c")]

/-- `exRaw` once normalised. -/
def exN1 : List (String × Json) := (normalize_queue_task exRaw "N").getD []

/-- `exRaw` normalised twice. -/
def exN2 : List (String × Json) := (normalize_queue_task exN1 "M").getD []

/-- The upload tasks harvested from `exPrompt`/`exOutputs`. -/
def exTasks : List UploadTask :=
  (collect_workflow_results exPrompt exOutputs "t1" "20240101").getD []

/-! # Theorems -/

/-! ## C6 — processor registry routing -/

/-- Claim C6 counterexample: the legacy spelling "face_swap" is routed to the
ComfyUI workflow processor, not to the face-swap processor, contradicting the
claim that it maps to the Face-Swap Processor. -/
theorem C6_counterexample :
    determine_processor_type "face_swap" = "comfyui" ∧ "comfyui" ≠ "facefusion" :=
  ⟨rfl, by decide⟩

/-- Claim C6 (amended): exactly the name "faceswap" selects the face-swap
(facefusion) processor; every other name — the legacy spelling "face_swap"
and the empty name included — selects the ComfyUI workflow processor. -/
theorem C6_routing (workflow_name : String) :
    determine_processor_type workflow_name =
      if workflow_name = "faceswap" then "facefusion" else "comfyui" := by
  by_cases h1 : workflow_name = ""
  · subst h1; decide
  · by_cases h2 : workflow_name = "faceswap"
    · subst h2; decide
    · simp only [determine_processor_type, beq_iff_eq, h1, h2, if_false]
      split <;> rfl

/-! ## C9 — empty allow-list disables filtering -/

/-- Claim C9: when the configured allow-list string parses to the empty list,
the workflow filter allows every workflow name, whatever matcher the stdlib
fnmatch provides — an empty allow-list disables filtering. -/
theorem C9_empty_allow_list_allows_all (s : String) (fnmatchFn : String → String → Bool)
    (workflow_name : String) (h : parse_workflow_list s = []) :
    is_workflow_allowed (parse_workflow_list s) fnmatchFn workflow_name = true := by
  rw [h]; rfl

/-- Witness for C9: a separators-and-whitespace allow-list parses to the empty
list and lets a name through even under a matcher that rejects everything. -/
theorem C9_witness :
    parse_workflow_list " , ,  " = [] ∧
    is_workflow_allowed (parse_workflow_list " , ,  ") (fun _ _ => false) "faceswap" = true :=
  ⟨rfl, C9_empty_allow_list_allows_all " , ,  " (fun _ _ => false) "faceswap" rfl⟩

/-! ## C4 — Redis priority lanes -/

/-- Claim C4: a fetch tick right-pops vip first — whenever the vip lane is
non-empty the tick returns its oldest element — and with one job per lane
three consecutive ticks drain vip, then normal, then guest, regardless of the
order the lanes were filled. -/
theorem C4_priority_order :
    (∀ (q : RedisQueues String), q.vip ≠ [] → (fetch_task q).1 = q.vip.getLast?) ∧
    (∀ (jv jn jg : String) (q : RedisQueues String),
      q.vip = [jv] → q.normal = [jn] → q.guest = [jg] →
      (fetch_task q).1 = some jv ∧
      (fetch_task (fetch_task q).2).1 = some jn ∧
      (fetch_task (fetch_task (fetch_task q).2).2).1 = some jg) := by
  constructor
  · intro q hq
    cases hlast : q.vip.getLast? with
    | none =>
      exact absurd (by simpa using hlast) hq
    | some x => simp [fetch_task, rpop, hlast]
  · intro jv jn jg q hv hn hg
    obtain ⟨v, n, g⟩ := q
    simp only at hv hn hg
    subst hv; subst hn; subst hg
    exact ⟨rfl, rfl, rfl⟩

/-- Witness for C4: the spec's scenario — guest enqueued first, vip last — is
drained vip, normal, guest. -/
theorem C4_witness :
    (fetch_task (⟨lpush "Jv" [], lpush "Jn" [], lpush "Jg" []⟩ : RedisQueues String)).1 = some "Jv" ∧
    (fetch_task (fetch_task (⟨lpush "Jv" [], lpush "Jn" [], lpush "Jg" []⟩ : RedisQueues String)).2).1 = some "Jn" ∧
    (fetch_task (fetch_task (fetch_task (⟨lpush "Jv" [], lpush "Jn" [], lpush "Jg" []⟩ : RedisQueues String)).2).2).1 = some "Jg" :=
  C4_priority_order.2 "Jv" "Jn" "Jg" ⟨lpush "Jv" [], lpush "Jn" [], lpush "Jg" []⟩ rfl rfl rfl

/-! ## C3 — download retry policy -/

/-- Claim C3 counterexample: a permanent 404 — which the claim calls
non-retryable and says fails the entry immediately — is retried like any other
failure: four attempts with back-off delays 1 s, 2 s, 4 s.  So the failure is
not immediate (4 attempts, not 1; delays non-empty) and the first delay is
1 s, not the claimed 0.5 s. -/
theorem C3_counterexample :
    download_image_trace (fun _ => .errStatus 404) = ⟨false, 4, [1, 2, 4]⟩ ∧
    (4 : Nat) ≠ 1 ∧ ([1, 2, 4] : List ℚ) ≠ [] ∧ ([1, 2, 4] : List ℚ).headD 0 ≠ 1 / 2 := by
  refine ⟨?_, by decide, by simp, by norm_num⟩
  simp only [download_image_trace, retryLoop, HttpOutcome.isOk]
  norm_num

/-- Claim C3 (amended): both the sync and async download paths retry every
failed attempt — 404 and other 4xx included, with no non-retryable class — up
to 3 retries (4 attempts), sleeping 1 s, 2 s, 4 s between attempts, stopping
at the first success. -/
theorem C3_retry_schedule (respond : Nat → HttpOutcome) :
    download_image_trace respond =
      (match firstOkWithin respond with
       | some i => ⟨true, i + 1, ([1, 2, 4] : List ℚ).take i⟩
       | none => ⟨false, 4, [1, 2, 4]⟩) ∧
    download_image_async_trace respond = download_image_trace respond := by
  refine ⟨?_, rfl⟩
  by_cases h0 : (respond 0).isOk <;> by_cases h1 : (respond 1).isOk <;>
    by_cases h2 : (respond 2).isOk <;> by_cases h3 : (respond 3).isOk <;>
    simp_all [download_image_trace, retryLoop, firstOkWithin, List.find?] <;> norm_num

/-! ## C1 — health gate and callbacks -/

/-- Claim C1 evaluated at the failing input: with the engine health probe down
the processor transitions nothing and returns the SERVICE_UNAVAILABLE
sentinel, and in HTTP mode no callback of any kind is emitted — but in Redis
mode the consumer has already sent a PROCESSING callback before the probe ran
and sends a FAILED callback when the sentinel surfaces as a None result, so
the job does not stay PENDING there. -/
theorem C1_health_gate_callbacks :
    execute_comfyui_task false exRun = (.ok none, []) ∧
    comfyui_process true true false exRun = (none, []) ∧
    process_task .http true true false true false exRun = (none, []) ∧
    process_task .redis true true false true false exRun = (none, [.processing, .failed]) :=
  ⟨rfl, rfl, rfl, rfl⟩

/-! ## C10 — failed artifact fetch is skipped -/

/-- Claim C10: an upload task whose /view fetch raises is skipped — the result
phase equals the phase run on the fetch-surviving tasks alone — and as long as
some other task both fetches and uploads, the url list is non-empty, so the
job still terminates COMPLETED. -/
theorem C10_failed_fetch_skipped (tasks : List UploadTask)
    (fetch : UploadTask → Option (List Nat)) (upload : UploadTask → Option String)
    (cf : Bool) (cdn : String) (t₀ t₁ : UploadTask) (u : String)
    (_h₀m : t₀ ∈ tasks) (_h₀ : fetch t₀ = none) (h₁m : t₁ ∈ tasks)
    (h₁ : (fetch t₁).isSome) (h₁u : upload t₁ = some u) :
    result_phase tasks fetch upload cf cdn =
      result_phase (tasks.filter (fun t => (fetch t).isSome)) fetch upload cf cdn ∧
    terminal_status (result_phase tasks fetch upload cf cdn) = .completed := by
  constructor
  · simp [result_phase, List.filter_filter]
  · have hmem : (if cf then u else cdn ++ "/" ++ t₁.path) ∈ result_phase tasks fetch upload cf cdn := by
      simp only [result_phase]
      refine List.mem_filterMap.mpr ⟨t₁, List.mem_filter.mpr ⟨h₁m, h₁⟩, ?_⟩
      rw [h₁u]; rfl
    have hne : result_phase tasks fetch upload cf cdn ≠ [] := by
      intro hnil; rw [hnil] at hmem; exact absurd hmem (List.not_mem_nil _)
    simp [terminal_status, List.isEmpty_iff, hne]

/-- Witness for C10: task A's fetch fails, task B fetches and uploads; the
phase drops A and the terminal status is COMPLETED. -/
theorem C10_witness :
    result_phase [exTaskA, exTaskB] exFetch exUpload true "cdn" =
      result_phase ([exTaskA, exTaskB].filter (fun t => (exFetch t).isSome)) exFetch exUpload true "cdn" ∧
    terminal_status (result_phase [exTaskA, exTaskB] exFetch exUpload true "cdn") = .completed :=
  C10_failed_fetch_skipped [exTaskA, exTaskB] exFetch exUpload true "cdn" exTaskA exTaskB
    "https://cdn.example/x" (List.Mem.head _) rfl (List.Mem.tail _ (List.Mem.head _)) rfl rfl

/-! ## C7 — normaliser idempotence -/

/-- A `truthyOrNone` value is `None` or truthy. -/
theorem truthyOrNone_elim {v : Json} (h : truthyOrNone v = true) :
    v = .null ∨ v.truthy = true := by
  cases v <;> simp_all [truthyOrNone]

/-- `x or None` keeps a value that is `None` or truthy. -/
theorem pyOr_null_of_torn {v : Json} (h : truthyOrNone v = true) : pyOr v .null = v := by
  rcases truthyOrNone_elim h with h | h
  · subst h; rfl
  · simp [pyOr, h]

/-- `x or (None or None)` keeps a value that is `None` or truthy. -/
theorem pyOr_chain2_of_torn {v : Json} (h : truthyOrNone v = true) :
    pyOr v (pyOr .null .null) = v := by
  rcases truthyOrNone_elim h with h | h
  · subst h; rfl
  · simp [pyOr, h]

/-- `x or y` keeps a truthy `x`. -/
theorem pyOr_truthy {v b : Json} (h : v.truthy = true) : pyOr v b = v := by
  simp [pyOr, h]

/-- The workflow chain always produces a truthy value (it ends in
`"default"`). -/
theorem normWorkflow_truthy {raw : List (String × Json)} {w : Json}
    (h : normWorkflow raw = some w) : w.truthy = true := by
  simp only [normWorkflow] at h
  repeat' split at h
  all_goals first
    | (cases Option.some.inj h; assumption)
    | (cases Option.some.inj h; rfl)
    | simp at h

/-- The params field the normaliser produces always contains `input_data`. -/
theorem normParams_has {raw : List (String × Json)} {p : Json}
    (h : normParams raw = some p) : pyIn "input_data" p = some true := by
  simp only [normParams] at h
  split at h
  · exact absurd h (by simp)
  · rename_i hin
    cases Option.some.inj h; exact hin
  · cases Option.some.inj h; simp [pyIn]

/-- A non-truthy callback value can only come from the final
`params.get("callbackUrl")` operand of the chain. -/
theorem normCallback_not_truthy {raw : List (String × Json)} {v : Json}
    (h : normCallback raw = some v) (hv : v.truthy = false) :
    jAttrGet ((jget? raw "params").getD (.obj [])) "callbackUrl" = some v := by
  simp only [normCallback] at h
  split at h
  · rename_i ha
    cases Option.some.inj h; simp [ha] at hv
  · split at h
    · rename_i hb
      cases Option.some.inj h; simp [hb] at hv
    · exact h

/-- Looking `callbackUrl` up on the normalised params gives `None` whenever it
did on the raw params. -/
theorem normParams_cb_null {raw : List (String × Json)} {p : Json}
    (hp : normParams raw = some p)
    (h : jAttrGet ((jget? raw "params").getD (.obj [])) "callbackUrl" = some .null) :
    jAttrGet p "callbackUrl" = some .null := by
  simp only [normParams] at hp
  split at hp
  next => exact absurd hp (by simp)
  next => rw [← Option.some.inj hp]; exact h
  next => rw [← Option.some.inj hp]; simp [jAttrGet, jget?, List.lookup]

/-- Every successfully normalised record has the canonical nine-field shape. -/
theorem normalize_shape {raw n1 : List (String × Json)} {now : String}
    (h1 : normalize_queue_task raw now = some n1) :
    ∃ tid uid pri w p cb ca, normWorkflow raw = some w ∧ normParams raw = some p ∧
      normCallback raw = some cb ∧ n1 = canonList tid uid pri w p cb ca raw := by
  unfold normalize_queue_task at h1
  rcases hw : normWorkflow raw with _ | w <;> rw [hw] at h1
  · exact absurd h1 (by simp)
  rcases hp : normParams raw with _ | p <;> rw [hp] at h1
  · exact absurd h1 (by simp)
  rcases hc : normCallback raw with _ | cb <;> rw [hc] at h1
  · exact absurd h1 (by simp)
  exact ⟨_, _, _, w, p, cb, _, rfl, rfl, rfl, (Option.some.inj h1).symm⟩

/-- The workflow chain on a canonical record returns its (truthy)
workflowName. -/
theorem normWorkflow_canon (tid uid pri w p cb ca : Json) (raw : List (String × Json))
    (hwt : w.truthy = true) :
    normWorkflow (canonList tid uid pri w p cb ca raw) = some w := by
  unfold normWorkflow
  simp [canonList, jget?, List.lookup, hwt]

/-- The params wrap on a canonical record is the identity. -/
theorem normParams_canon (tid uid pri w p cb ca : Json) (raw : List (String × Json))
    (hin : pyIn "input_data" p = some true) :
    normParams (canonList tid uid pri w p cb ca raw) = some p := by
  unfold normParams
  simp [canonList, jget?, List.lookup, hin]

/-- The callback chain on a canonical record returns its callbackUrl. -/
theorem normCallback_canon (tid uid pri w p cb ca : Json) (raw : List (String × Json))
    (hcbn : truthyOrNone cb = true)
    (hnull : cb = .null → jAttrGet p "callbackUrl" = some .null) :
    normCallback (canonList tid uid pri w p cb ca raw) = some cb := by
  unfold normCallback
  rcases truthyOrNone_elim hcbn with h | h
  · subst h
    simp [canonList, jget?, List.lookup, Json.truthy, hnull rfl]
  · simp [canonList, jget?, List.lookup, h]

/-- Re-normalising a canonical record reproduces every field and replaces
`_raw` with the record itself. -/
theorem normalize_canon_eval (tid uid pri w p cb ca : Json) (raw : List (String × Json))
    (now' : String) (hwt : w.truthy = true) (hin : pyIn "input_data" p = some true)
    (hcbn : truthyOrNone cb = true) (hnull : cb = .null → jAttrGet p "callbackUrl" = some .null)
    (hid : truthyOrNone tid = true) (huid : truthyOrNone uid = true) (hcat : ca.truthy = true) :
    normalize_queue_task (canonList tid uid pri w p cb ca raw) now' =
      some (canonList tid uid pri w p cb ca (canonList tid uid pri w p cb ca raw)) := by
  unfold normalize_queue_task
  rw [normWorkflow_canon tid uid pri w p cb ca raw hwt,
      normParams_canon tid uid pri w p cb ca raw hin,
      normCallback_canon tid uid pri w p cb ca raw hcbn hnull]
  simp [canonList, jget?, List.lookup, pyOr_chain2_of_torn hid, pyOr_null_of_torn huid,
    pyOr_truthy hcat]

/-- Claim C7 counterexample: the normaliser is not idempotent as stated — the
`_raw` diagnostics field of a re-normalised record holds the canonical record
instead of the original raw one, so applying normalisation to its own output
changes the record. -/
theorem C7_counterexample :
    normalize_queue_task ((normalize_queue_task [] "T").getD []) "T" ≠
      normalize_queue_task [] "T" := by
  intro h
  have h2 := congrArg (Option.map rawObjSize) h
  rw [show Option.map rawObjSize (normalize_queue_task ((normalize_queue_task [] "T").getD []) "T") =
        some 9 from rfl,
      show Option.map rawObjSize (normalize_queue_task [] "T") = some 0 from rfl] at h2
  exact absurd h2 (by decide)

/-- Claim C7 (amended): the normaliser is idempotent up to the `_raw`
diagnostics field.  For any record whose normalisation succeeds and whose
canonical taskId, userId and callbackUrl are absent-or-truthy and createdAt
truthy — true of every record a producer actually sends — re-normalising the
canonical record reproduces every field except `_raw`, which is replaced by
the canonical record itself. -/
theorem C7_idempotent_up_to_raw (raw n1 n2 : List (String × Json)) (now now' : String)
    (h1 : normalize_queue_task raw now = some n1)
    (hid : truthyOrNone ((jget? n1 "taskId").getD .null) = true)
    (huid : truthyOrNone ((jget? n1 "userId").getD .null) = true)
    (hcb : truthyOrNone ((jget? n1 "callbackUrl").getD .null) = true)
    (hca : ((jget? n1 "createdAt").getD .null).truthy = true)
    (h2 : normalize_queue_task n1 now' = some n2) :
    eraseRaw n2 = eraseRaw n1 := by
  obtain ⟨tid, uid, pri, w, p, cb, ca, hw, hp, hc, hn1⟩ := normalize_shape h1
  subst hn1
  simp only [canonList, jget?, List.lookup] at hid huid hcb hca
  norm_num at hid huid hcb hca
  rw [normalize_canon_eval tid uid pri w p cb ca raw now' (normWorkflow_truthy hw)
        (normParams_has hp) hcb
        (fun hnl => normParams_cb_null hp
          (hnl ▸ normCallback_not_truthy hc (by rw [hnl]; rfl)))
        hid huid hca] at h2
  rw [← Option.some.inj h2]
  simp [eraseRaw, canonList]

/-- Witness for C7: a concrete producer record, normalised once and twice;
the two canonical records agree outside `_raw`. -/
theorem C7_witness : eraseRaw exN2 = eraseRaw exN1 :=
  C7_idempotent_up_to_raw exRaw exN1 exN2 "N" "M" rfl rfl rfl rfl rfl rfl

/-! ## C5 — progress rate limiting -/

/-- The first emission after `lastT` satisfies the gap-or-90% condition
relative to `lastT`. -/
theorem progress_emissions_head (pid : String) (start timeout : ℚ) (has_cb : Bool) :
    ∀ (msgs : List TimedMsg) (lastT : ℚ),
      ∀ e ∈ (progress_emissions pid start timeout has_cb msgs lastT).head?,
        3 ≤ e.t - lastT ∨ (0 < e.max ∧ (9 : ℚ) / 10 ≤ (e.value : ℚ) / (e.max : ℚ)) := by
  intro msgs
  induction msgs with
  | nil => intro lastT e he; simp [progress_emissions] at he
  | cons m rest ih =>
    obtain ⟨tm, mm⟩ := m
    intro lastT e he
    cases mm with
    | executing p node =>
      simp only [progress_emissions] at he
      by_cases ht : timeout < tm - start
      · simp [ht] at he
      · rw [if_neg (by simpa using ht)] at he
        by_cases hterm : (p == some pid && node == none) = true
        · rw [if_pos hterm] at he; simp at he
        · rw [if_neg hterm] at he; exact ih lastT e he
    | progress v mx =>
      simp only [progress_emissions] at he
      by_cases ht : timeout < tm - start
      · simp [ht] at he
      · rw [if_neg (by simpa using ht)] at he
        by_cases hs : ((decide (3 ≤ tm - lastT) || nearDone v mx) && has_cb) = true
        · rw [if_pos hs] at he
          simp only [List.head?_cons, Option.mem_def, Option.some.injEq] at he
          subst he
          have hcond := ((Bool.and_eq_true _ _).mp hs).1
          rcases (Bool.or_eq_true _ _).mp hcond with h3 | h9
          · exact Or.inl (by simpa using of_decide_eq_true h3)
          · refine Or.inr ?_
            have h9' := (Bool.and_eq_true _ _).mp h9
            exact ⟨by simpa using of_decide_eq_true h9'.1, by simpa using of_decide_eq_true h9'.2⟩
        · rw [if_neg hs] at he; exact ih lastT e he
    | other =>
      simp only [progress_emissions] at he
      by_cases ht : timeout < tm - start
      · simp [ht] at he
      · rw [if_neg (by simpa using ht)] at he; exact ih lastT e he

/-- Consecutive emitted progress callbacks are 3 seconds apart, or the later
one crossed 90 %. -/
theorem progress_emissions_chain (pid : String) (start timeout : ℚ) (has_cb : Bool) :
    ∀ (msgs : List TimedMsg) (lastT : ℚ),
      List.Chain' gapOk (progress_emissions pid start timeout has_cb msgs lastT) := by
  intro msgs
  induction msgs with
  | nil => intro lastT; simp [progress_emissions]
  | cons m rest ih =>
    obtain ⟨tm, mm⟩ := m
    intro lastT
    cases mm with
    | executing p node =>
      simp only [progress_emissions]
      by_cases ht : timeout < tm - start
      · simp [ht]
      · rw [if_neg (by simpa using ht)]
        by_cases hterm : (p == some pid && node == none) = true
        · rw [if_pos hterm]; exact List.chain'_nil
        · rw [if_neg hterm]; exact ih lastT
    | progress v mx =>
      simp only [progress_emissions]
      by_cases ht : timeout < tm - start
      · simp [ht]
      · rw [if_neg (by simpa using ht)]
        by_cases hs : ((decide (3 ≤ tm - lastT) || nearDone v mx) && has_cb) = true
        · rw [if_pos hs]
          refine List.chain'_cons'.mpr ⟨?_, ih tm⟩
          intro e he
          exact progress_emissions_head pid start timeout has_cb rest tm e he
        · rw [if_neg hs]; exact ih lastT
    | other =>
      simp only [progress_emissions]
      by_cases ht : timeout < tm - start
      · simp [ht]
      · rw [if_neg (by simpa using ht)]; exact ih lastT

/-- A progress message meeting the ≥ 90 % condition that the loop reaches (no
terminal marker and no timeout before or at it) is delivered. -/
theorem progress_emissions_delivers (pid : String) (start timeout : ℚ)
    (msgs1 : List TimedMsg) (m : TimedMsg) (rest : List TimedMsg) (v mx : Int) :
    ∀ (lastT : ℚ),
      (∀ x ∈ msgs1, ¬ isTerminal pid x ∧ x.t - start ≤ timeout) →
      m.t - start ≤ timeout → m.msg = .progress v mx → 0 < mx →
      (9 : ℚ) / 10 ≤ (v : ℚ) / (mx : ℚ) →
      (⟨m.t, v, mx⟩ : ProgressEvent) ∈
        progress_emissions pid start timeout true (msgs1 ++ m :: rest) lastT := by
  induction msgs1 with
  | nil =>
    intro lastT _ htm hmsg hmx h9
    obtain ⟨tm, mm⟩ := m
    simp only at hmsg
    subst hmsg
    simp only [List.nil_append, progress_emissions]
    rw [if_neg (by simpa using not_lt.mpr htm)]
    have hnear : nearDone v mx = true := by
      unfold nearDone
      rw [decide_eq_true hmx, decide_eq_true h9]
      rfl
    rw [if_pos (by rw [hnear]; simp)]
    exact List.mem_cons_self _ _
  | cons x msgs1 ih =>
    intro lastT hok htm hmsg hmx h9
    have hx := hok x (List.mem_cons_self _ _)
    have hok' : ∀ y ∈ msgs1, ¬ isTerminal pid y ∧ y.t - start ≤ timeout :=
      fun y hy => hok y (List.mem_cons_of_mem _ hy)
    obtain ⟨tx, mx'⟩ := x
    cases mx' with
    | executing p node =>
      simp only [List.cons_append, progress_emissions]
      rw [if_neg (by simpa using not_lt.mpr hx.2)]
      have hterm : ¬ ((p == some pid && node == none) = true) := by
        intro h
        have hh := (Bool.and_eq_true _ _).mp h
        apply hx.1
        unfold isTerminal
        simp only
        rw [show p = some pid from by simpa using hh.1,
            show node = none from by simpa using hh.2]
      rw [if_neg hterm]
      exact ih lastT hok' htm hmsg hmx h9
    | progress xv xmx =>
      simp only [List.cons_append, progress_emissions]
      rw [if_neg (by simpa using not_lt.mpr hx.2)]
      by_cases hs : ((decide (3 ≤ tx - lastT) || nearDone xv xmx) && true) = true
      · rw [if_pos hs]
        exact List.mem_cons_of_mem _ (ih tx hok' htm hmsg hmx h9)
      · rw [if_neg hs]
        exact ih lastT hok' htm hmsg hmx h9
    | other =>
      simp only [List.cons_append, progress_emissions]
      rw [if_neg (by simpa using not_lt.mpr hx.2)]
      exact ih lastT hok' htm hmsg hmx h9

/-- Claim C5: (1) any two consecutive progress callbacks the wait loop emits
for a job are at least 3 seconds apart or the later one reported at least
90 % of max; (2) a progress event meeting the ≥ 90 % condition that the loop
reaches (with a callback configured, before the terminal marker and within
the timeout) is always delivered. -/
theorem C5_progress_rate_limit :
    (∀ (pid : String) (start timeout : ℚ) (msgs : List TimedMsg) (lastT : ℚ),
      List.Chain' gapOk (progress_emissions pid start timeout true msgs lastT)) ∧
    (∀ (pid : String) (start timeout : ℚ) (msgs1 : List TimedMsg) (m : TimedMsg)
      (rest : List TimedMsg) (v mx : Int) (lastT : ℚ),
      (∀ x ∈ msgs1, ¬ isTerminal pid x ∧ x.t - start ≤ timeout) →
      m.t - start ≤ timeout → m.msg = .progress v mx → 0 < mx →
      (9 : ℚ) / 10 ≤ (v : ℚ) / (mx : ℚ) →
      (⟨m.t, v, mx⟩ : ProgressEvent) ∈
        progress_emissions pid start timeout true (msgs1 ++ m :: rest) lastT) :=
  ⟨fun pid s t msgs lastT => progress_emissions_chain pid s t true msgs lastT,
   fun pid s t m1 m r v mx lastT => progress_emissions_delivers pid s t m1 m r v mx lastT⟩

/-- Witness for C5: a concrete trace — an early progress event, a 95 % event
one second later (delivered through the override), then the terminal
marker. -/
theorem C5_witness :
    List.Chain' gapOk (progress_emissions "P" 0 150 true
      [⟨1, .progress 10 100⟩, ⟨2, .progress 95 100⟩, ⟨6, .executing (some "P") none⟩] 0) ∧
    (⟨2, 95, 100⟩ : ProgressEvent) ∈ progress_emissions "P" 0 150 true
      ([⟨1, .progress 10 100⟩] ++ ⟨2, .progress 95 100⟩ :: [⟨6, .executing (some "P") none⟩]) 0 := by
  constructor
  · exact C5_progress_rate_limit.1 "P" 0 150 _ 0
  · refine C5_progress_rate_limit.2 "P" 0 150 [⟨1, .progress 10 100⟩] ⟨2, .progress 95 100⟩
      [⟨6, .executing (some "P") none⟩] 95 100 0 ?_ (by norm_num) rfl (by norm_num) (by norm_num)
    intro x hx
    rw [List.mem_singleton] at hx
    subst hx
    exact ⟨by simp [isTerminal], by norm_num⟩

/-! ## C2 / C8 — harvest machinery: decimal digits of `Nat.repr` -/

theorem toDigitsCore_eq_decDigits :
    ∀ (fuel n : Nat) (ds : List Char), n < fuel →
      Nat.toDigitsCore 10 fuel n ds = decDigits n ++ ds := by
  intro fuel
  induction fuel with
  | zero => intro n ds h; omega
  | succ f ih =>
    intro n ds h
    show (if n / 10 = 0 then Nat.digitChar (n % 10) :: ds
          else Nat.toDigitsCore 10 f (n / 10) (Nat.digitChar (n % 10) :: ds)) = decDigits n ++ ds
    by_cases h10 : n / 10 = 0
    · have hn : n < 10 := by omega
      rw [if_pos h10, decDigits, dif_pos hn, Nat.mod_eq_of_lt hn]
      rfl
    · have hn : ¬ n < 10 := by
        intro hlt
        exact h10 (Nat.div_eq_of_lt hlt)
      have hdiv : n / 10 < f := by
        have := Nat.div_lt_self (by omega : 0 < n) (by omega : 1 < 10)
        omega
      rw [if_neg h10, ih (n / 10) (Nat.digitChar (n % 10) :: ds) hdiv]
      conv_rhs => rw [decDigits]
      rw [dif_neg hn]
      simp

theorem repr_data_eq_decDigits (n : Nat) : (Nat.repr n).data = decDigits n := by
  show (Nat.toDigits 10 n).asString.data = decDigits n
  rw [Nat.toDigits, toDigitsCore_eq_decDigits (n + 1) n [] (Nat.lt_succ_self n)]
  simp [List.asString]

theorem digitChar_isDigit {k : Nat} (h : k < 10) : (Nat.digitChar k).isDigit = true := by
  interval_cases k <;> decide

theorem digitVal_digitChar {k : Nat} (h : k < 10) : digitVal (Nat.digitChar k) = k := by
  interval_cases k <;> decide

theorem decDigits_ne_nil (n : Nat) : decDigits n ≠ [] := by
  rw [decDigits]
  split <;> simp

theorem decDigits_all_digit :
    ∀ n, ∀ c ∈ decDigits n, c.isDigit = true := by
  intro n
  induction n using Nat.strong_induction_on with
  | _ n ih =>
    rw [decDigits]
    split
    next h =>
      intro c hc
      rw [List.mem_singleton] at hc
      subst hc
      exact digitChar_isDigit h
    next h =>
      intro c hc
      rw [List.mem_append] at hc
      rcases hc with hc | hc
      · exact ih (n / 10) (Nat.div_lt_self (by omega) (by omega)) c hc
      · rw [List.mem_singleton] at hc
        subst hc
        exact digitChar_isDigit (Nat.mod_lt _ (by omega))

theorem digitsVal_decDigits : ∀ n, digitsVal (decDigits n) = n := by
  intro n
  induction n using Nat.strong_induction_on with
  | _ n ih =>
    rw [decDigits]
    split
    next h =>
      simp [digitsVal, digitVal_digitChar h]
    next h =>
      have hval : digitsVal (decDigits (n / 10) ++ [Nat.digitChar (n % 10)]) =
          10 * digitsVal (decDigits (n / 10)) + digitVal (Nat.digitChar (n % 10)) := by
        simp [digitsVal, List.foldl_append]
      rw [hval, ih (n / 10) (Nat.div_lt_self (by omega) (by omega)),
          digitVal_digitChar (Nat.mod_lt _ (by omega))]
      omega

theorem decDigits_inj {m n : Nat} (h : decDigits m = decDigits n) : m = n := by
  have hm := digitsVal_decDigits m
  rw [h, digitsVal_decDigits n] at hm
  omega

/-! ## C2 / C8 — harvest machinery: sequence extraction from paths -/

theorem takeWhile_append_of_all {p : Char → Bool} :
    ∀ {xs ys : List Char}, (∀ c ∈ xs, p c = true) →
      (xs ++ ys).takeWhile p = xs ++ ys.takeWhile p := by
  intro xs
  induction xs with
  | nil => simp
  | cons c rest ih =>
    intro ys h
    have hc := h c (List.mem_cons_self _ _)
    simp [List.takeWhile_cons, hc, ih (fun d hd => h d (List.mem_cons_of_mem _ hd))]

theorem digit_ne_dot {c : Char} (h : c.isDigit = true) : (decide (c ≠ '.')) = true := by
  rw [decide_eq_true_eq]
  intro hc
  subst hc
  exact absurd h (by decide)

/-- None of the handler tags contains a dot. -/
theorem seqTags_no_dot {tag : String} (htag : tag ∈ SeqTags) :
    ∀ c ∈ tag.data, (decide (c ≠ '.')) = true := by
  fin_cases htag <;> decide

/-- No handler tag ends in digits. -/
theorem seqTags_no_digit_suffix {tag : String} (htag : tag ∈ SeqTags) :
    tag.data.reverse.takeWhile Char.isDigit = [] := by
  fin_cases htag <;> decide

/-- The digit block of a handler-built path is exactly the decimal rendering
of the sequence number. -/
theorem seqDigits_mkPath (date mid tag ext : String) (n : Nat)
    (htag : tag ∈ SeqTags) (hext : ExtOK ext) :
    seqDigits date mid (mkPath date mid tag n ext) = decDigits n := by
  obtain ⟨t, ht⟩ := hext
  unfold seqDigits mkPath
  have h1 : (date ++ "/" ++ mid ++ "_" ++ tag ++ Nat.repr n ++ ext).data =
      (date.data ++ '/' :: (mid.data ++ ['_'])) ++
        (tag.data ++ ((Nat.repr n).data ++ ext.data)) := by
    simp
  have h2 : date.data.length + 1 + mid.data.length + 1 =
      (date.data ++ '/' :: (mid.data ++ ['_'])).length := by
    simp
    omega
  rw [h1, h2, List.drop_left, repr_data_eq_decDigits]
  rw [takeWhile_append_of_all (seqTags_no_dot htag),
      takeWhile_append_of_all (fun c hc => digit_ne_dot (decDigits_all_digit n c hc)),
      ht]
  rw [show (('.' :: t).takeWhile (fun c => decide (c ≠ '.'))) = [] from by
    simp [List.takeWhile_cons]]
  unfold digitSuffix
  rw [List.append_nil, List.reverse_append,
      takeWhile_append_of_all (fun c hc =>
        decDigits_all_digit n c (List.mem_reverse.mp hc)),
      seqTags_no_digit_suffix htag]
  simp

/-- Two handler-built paths with the same date/job prelude and equal text
carry the same sequence number. -/
theorem goodPath_inj {date mid : String} {n1 n2 : Nat} {p : String}
    (h1 : GoodPath date mid n1 p) (h2 : GoodPath date mid n2 p) : n1 = n2 := by
  obtain ⟨tag1, ext1, ht1, he1, hp1⟩ := h1
  obtain ⟨tag2, ext2, ht2, he2, hp2⟩ := h2
  have s1 := seqDigits_mkPath date mid tag1 ext1 n1 ht1 he1
  have s2 := seqDigits_mkPath date mid tag2 ext2 n2 ht2 he2
  rw [← hp1] at s1
  rw [← hp2] at s2
  exact decDigits_inj (s1.symm.trans s2)

/-! ## C2 / C8 — harvest machinery: the growing task-list invariant -/

theorem harvested_nil {date mid : String} {P : String → Prop} :
    Harvested date mid P [] := by
  intro k hk
  simp at hk

theorem harvested_append {date mid : String} {P : String → Prop}
    {ts : List UploadTask} {t : UploadTask} (h : Harvested date mid P ts)
    (hg : GoodPath date mid ts.length t.path) (hp : P t.node_id) :
    Harvested date mid P (ts ++ [t]) := by
  intro k hk
  have hk' : k < ts.length + 1 := by simpa using hk
  by_cases hlt : k < ts.length
  · have hget : (ts ++ [t]).get ⟨k, hk⟩ = ts.get ⟨k, hlt⟩ := by
      rw [List.get_eq_getElem, List.get_eq_getElem, List.getElem_append_left]
    rw [hget]
    exact h k hlt
  · have hke : k = ts.length := by omega
    subst hke
    have hget : (ts ++ [t]).get ⟨ts.length, hk⟩ = t := by
      simp
    rw [hget]
    exact ⟨hg, hp⟩

theorem harvested_foldl {date mid nid : String} {P : String → Prop}
    {step : List UploadTask → Json → List UploadTask}
    (hstep : EntryStep nid date mid step) (hP : P nid) :
    ∀ (elems : List Json) (ts : List UploadTask),
      Harvested date mid P ts → Harvested date mid P (elems.foldl step ts) := by
  intro elems
  induction elems with
  | nil => intro ts h; exact h
  | cons e rest ih =>
    intro ts h
    rcases hstep ts e with hsame | ⟨t, happ, hnid, hgood⟩
    · rw [List.foldl_cons, hsame]; exact ih ts h
    · rw [List.foldl_cons, happ]
      exact ih (ts ++ [t]) (harvested_append h hgood (hnid.symm ▸ hP))

/-! ## C2 / C8 — harvest machinery: the entry steps append well-formed tasks -/

theorem splitextExt_cases (s : String) : splitextExt s = "" ∨ ExtOK (splitextExt s) := by
  simp only [splitextExt]
  split
  · right; exact ⟨_, rfl⟩
  · left; rfl

theorem extOK_strOr {e d : String} (hd : ExtOK d) (he : e = "" ∨ ExtOK e) :
    ExtOK (strOr e d) := by
  unfold strOr
  by_cases h : (e == "") = true
  · rw [if_pos h]; exact hd
  · rw [if_neg h]
    rcases he with h0 | h0
    · subst h0; simp at h
    · exact h0

theorem extOK_vhsInfer (fmtS : String) : ExtOK (vhsInferExt fmtS) := by
  unfold vhsInferExt
  repeat' split
  all_goals exact ⟨_, rfl⟩

theorem extOK_vhsPrevInfer (fmtS : String) : ExtOK (vhsPrevInferExt fmtS) := by
  unfold vhsPrevInferExt
  repeat' split
  all_goals exact ⟨_, rfl⟩

theorem vhsFallbackExt_extOK {f : Json} {e : String} (h : vhsFallbackExt f = some e) :
    ExtOK e := by
  unfold vhsFallbackExt at h
  repeat' split at h
  all_goals first
    | (cases Option.some.inj h; exact ⟨_, rfl⟩)
    | exact Option.noConfusion h

theorem goodPath_mk (date mid tag ext : String) (n : Nat) (htag : tag ∈ SeqTags)
    (hext : ExtOK ext) : GoodPath date mid n (mkPath date mid tag n ext) :=
  ⟨tag, ext, htag, hext, rfl⟩

theorem entryStep_saveImage (nid mid date : String) :
    EntryStep nid date mid (saveImageEntry nid mid date) := by
  intro ts v
  simp only [saveImageEntry]
  repeat' split
  all_goals first
    | exact Or.inl rfl
    | (refine Or.inr ⟨_, rfl, rfl, goodPath_mk date mid _ _ ts.length (by decide) ?_⟩
       first
         | exact ⟨_, rfl⟩
         | exact extOK_strOr ⟨_, rfl⟩ (splitextExt_cases _)
         | exact extOK_strOr (extOK_vhsInfer _) (splitextExt_cases _)
         | exact extOK_strOr (extOK_vhsPrevInfer _) (splitextExt_cases _))

theorem entryStep_previewImage (nid mid date : String) :
    EntryStep nid date mid (previewImageEntry nid mid date) := by
  intro ts v
  simp only [previewImageEntry]
  repeat' split
  all_goals first
    | exact Or.inl rfl
    | (refine Or.inr ⟨_, rfl, rfl, goodPath_mk date mid _ _ ts.length (by decide) ?_⟩
       exact ⟨_, rfl⟩)

theorem entryStep_saveVideo (nid mid date : String) :
    EntryStep nid date mid (saveVideoEntry nid mid date) := by
  intro ts v
  simp only [saveVideoEntry]
  repeat' split
  all_goals first
    | exact Or.inl rfl
    | (refine Or.inr ⟨_, rfl, rfl, goodPath_mk date mid _ _ ts.length (by decide) ?_⟩
       exact extOK_strOr ⟨_, rfl⟩ (splitextExt_cases _))

theorem entryStep_saveAudio (nid mid date : String) :
    EntryStep nid date mid (saveAudioEntry nid mid date) := by
  intro ts v
  simp only [saveAudioEntry]
  repeat' split
  all_goals first
    | exact Or.inl rfl
    | (refine Or.inr ⟨_, rfl, rfl, goodPath_mk date mid _ _ ts.length (by decide) ?_⟩
       exact extOK_strOr ⟨_, rfl⟩ (splitextExt_cases _))

theorem entryStep_vhsGif (nid mid date : String) :
    EntryStep nid date mid (vhsGifEntry nid mid date) := by
  intro ts v
  simp only [vhsGifEntry]
  repeat' split
  all_goals first
    | exact Or.inl rfl
    | (refine Or.inr ⟨_, rfl, rfl, goodPath_mk date mid _ _ ts.length (by decide) ?_⟩
       exact extOK_strOr (extOK_vhsInfer _) (splitextExt_cases _))

theorem entryStep_vhsPreviewPart (nid mid date : String) :
    EntryStep nid date mid (vhsPreviewPart nid mid date) := by
  intro ts v
  simp only [vhsPreviewPart]
  repeat' split
  all_goals first
    | exact Or.inl rfl
    | (refine Or.inr ⟨_, rfl, rfl, goodPath_mk date mid _ _ ts.length (by decide) ?_⟩
       exact extOK_strOr (extOK_vhsPrevInfer _) (splitextExt_cases _))

theorem entryStep_vhsWidget (nid mid date : String) :
    EntryStep nid date mid (vhsWidgetEntry nid mid date) := by
  intro ts v
  simp only [vhsWidgetEntry]
  repeat' split
  all_goals first
    | exact Or.inl rfl
    | (refine Or.inr ⟨_, rfl, rfl, goodPath_mk date mid _ _ ts.length (by decide) ?_⟩
       exact extOK_strOr ⟨_, rfl⟩ (splitextExt_cases _))
    | exact entryStep_vhsPreviewPart nid mid date ts _

/-! ## C2 / C8 — harvest machinery: each handler preserves the invariant -/

theorem harvested_saveImageCollect {date mid : String} {P : String → Prop} {nid : String}
    {nout : Json} {ts ts' : List UploadTask}
    (h : saveImageCollect nid nout mid date ts = some ts')
    (hts : Harvested date mid P ts) (hP : P nid) : Harvested date mid P ts' := by
  unfold saveImageCollect at h
  repeat' split at h
  all_goals first
    | exact Option.noConfusion h
    | (cases Option.some.inj h; exact hts)
    | (cases h; exact hts)
    | (cases Option.some.inj h;
       exact harvested_foldl (entryStep_saveImage nid mid date) hP _ ts hts)
    | (cases h; exact harvested_foldl (entryStep_saveImage nid mid date) hP _ ts hts)

theorem harvested_previewImageCollect {date mid : String} {P : String → Prop} {nid : String}
    {nout : Json} {ts ts' : List UploadTask}
    (h : previewImageCollect nid nout mid date ts = some ts')
    (hts : Harvested date mid P ts) (hP : P nid) : Harvested date mid P ts' := by
  unfold previewImageCollect at h
  repeat' split at h
  all_goals first
    | exact Option.noConfusion h
    | (cases Option.some.inj h; exact hts)
    | (cases h; exact hts)
    | (cases Option.some.inj h;
       exact harvested_foldl (entryStep_previewImage nid mid date) hP _ ts hts)
    | (cases h; exact harvested_foldl (entryStep_previewImage nid mid date) hP _ ts hts)

theorem harvested_saveAudioCollect {date mid : String} {P : String → Prop} {nid : String}
    {nout : Json} {ts ts' : List UploadTask}
    (h : saveAudioCollect nid nout mid date ts = some ts')
    (hts : Harvested date mid P ts) (hP : P nid) : Harvested date mid P ts' := by
  unfold saveAudioCollect at h
  repeat' split at h
  all_goals first
    | exact Option.noConfusion h
    | (cases Option.some.inj h; exact hts)
    | (cases h; exact hts)
    | (cases Option.some.inj h;
       exact harvested_foldl (entryStep_saveAudio nid mid date) hP _ ts hts)
    | (cases h; exact harvested_foldl (entryStep_saveAudio nid mid date) hP _ ts hts)

theorem harvested_saveVideoStep {date mid : String} {P : String → Prop} {nid : String}
    {nout : Json} {f : String} {ts : List UploadTask} {r : List UploadTask × Bool}
    (h : saveVideoStep nid mid date nout f ts = some r)
    (hts : Harvested date mid P ts) (hP : P nid) : Harvested date mid P r.1 := by
  unfold saveVideoStep at h
  repeat' split at h
  all_goals first
    | exact Option.noConfusion h
    | (cases Option.some.inj h; exact hts)
    | (cases h; exact hts)
    | (cases Option.some.inj h;
       exact harvested_foldl (entryStep_saveVideo nid mid date) hP _ ts hts)
    | (cases h; exact harvested_foldl (entryStep_saveVideo nid mid date) hP _ ts hts)

theorem harvested_saveVideoLoop {date mid : String} {P : String → Prop} {nid : String}
    {nout : Json} :
    ∀ (fields : List String) (ts : List UploadTask) (r : List UploadTask × Bool),
      saveVideoLoop nid mid date nout fields ts = some r →
      Harvested date mid P ts → P nid → Harvested date mid P r.1 := by
  intro fields
  induction fields with
  | nil =>
    intro ts r h hts _
    cases Option.some.inj h
    exact hts
  | cons f fs ih =>
    intro ts r h hts hP
    unfold saveVideoLoop at h
    split at h
    · exact Option.noConfusion h
    case h_2 ts1 hstep =>
      cases Option.some.inj h
      exact harvested_saveVideoStep hstep hts hP
    case h_3 ts1 hstep =>
      exact ih ts1 r h (harvested_saveVideoStep hstep hts hP) hP

theorem harvested_saveVideoCollect {date mid : String} {P : String → Prop} {nid : String}
    {nd nout : Json} {ts ts' : List UploadTask}
    (h : saveVideoCollect nid nd nout mid date ts = some ts')
    (hts : Harvested date mid P ts) (hP : P nid) : Harvested date mid P ts' := by
  simp only [saveVideoCollect] at h
  split at h
  · exact Option.noConfusion h
  case h_2 r hr =>
    cases Option.some.inj h
    exact harvested_saveVideoLoop _ _ _ hr hts hP
  case h_3 r hr =>
    have hloop : Harvested date mid P r :=
      harvested_saveVideoLoop _ _ (r, false) hr hts hP
    repeat' split at h
    all_goals first
      | exact Option.noConfusion h
      | (cases Option.some.inj h; exact hloop)
      | (cases h; exact hloop)
      | (cases Option.some.inj h;
         exact harvested_append hloop
           (goodPath_mk date mid "video_" ".mp4" _ (by decide) ⟨_, rfl⟩) hP)
      | (cases h
         exact harvested_append hloop
           (goodPath_mk date mid "video_" ".mp4" _ (by decide) ⟨_, rfl⟩) hP)

theorem harvested_vhsGifsPhase {date mid : String} {P : String → Prop} {nid : String}
    {nout : Json} {ts ts' : List UploadTask}
    (h : vhsGifsPhase nid mid date nout ts = some ts')
    (hts : Harvested date mid P ts) (hP : P nid) : Harvested date mid P ts' := by
  unfold vhsGifsPhase at h
  repeat' split at h
  all_goals first
    | exact Option.noConfusion h
    | (cases Option.some.inj h; exact hts)
    | (cases h; exact hts)
    | (cases Option.some.inj h;
       exact harvested_foldl (entryStep_vhsGif nid mid date) hP _ ts hts)
    | (cases h; exact harvested_foldl (entryStep_vhsGif nid mid date) hP _ ts hts)

theorem harvested_vhsWidgetsPhase {date mid : String} {P : String → Prop} {nid : String}
    {nout : Json} {ts ts' : List UploadTask}
    (h : vhsWidgetsPhase nid mid date nout ts = some ts')
    (hts : Harvested date mid P ts) (hP : P nid) : Harvested date mid P ts' := by
  unfold vhsWidgetsPhase at h
  repeat' split at h
  all_goals first
    | exact Option.noConfusion h
    | (cases Option.some.inj h; exact hts)
    | (cases h; exact hts)
    | (cases Option.some.inj h;
       exact harvested_foldl (entryStep_vhsWidget nid mid date) hP _ ts hts)
    | (cases h; exact harvested_foldl (entryStep_vhsWidget nid mid date) hP _ ts hts)

theorem harvested_vhsFallback {date mid : String} {P : String → Prop} {nid : String}
    {nd : Json} {ts ts' : List UploadTask}
    (h : vhsFallback nid nd mid date ts = some ts')
    (hts : Harvested date mid P ts) (hP : P nid) : Harvested date mid P ts' := by
  simp only [vhsFallback] at h
  repeat' split at h
  all_goals first
    | exact Option.noConfusion h
    | (cases Option.some.inj h; exact hts)
    | (cases h; exact hts)
    | (cases Option.some.inj h
       refine harvested_append hts (goodPath_mk date mid _ _ ts.length (by decide) ?_) hP
       exact vhsFallbackExt_extOK (by assumption))
    | (cases h
       refine harvested_append hts (goodPath_mk date mid _ _ ts.length (by decide) ?_) hP
       exact vhsFallbackExt_extOK (by assumption))

theorem harvested_vhsCollect {date mid : String} {P : String → Prop} {nid : String}
    {nd nout : Json} {ts ts' : List UploadTask}
    (h : vhsCollect nid nd nout mid date ts = some ts')
    (hts : Harvested date mid P ts) (hP : P nid) : Harvested date mid P ts' := by
  unfold vhsCollect at h
  split at h
  · simp at h
  case h_2 ts1 h1 =>
    split at h
    · simp at h
    case h_2 ts2 h2 =>
      exact harvested_vhsFallback h
        (harvested_vhsWidgetsPhase h2 (harvested_vhsGifsPhase h1 hts hP) hP) hP

theorem harvested_runHandler {date mid : String} {P : String → Prop} {hd : ResultHandler}
    {nid : String} {nd nout : Json} {ts ts' : List UploadTask}
    (h : runHandler hd nid nd nout mid date ts = some ts')
    (hts : Harvested date mid P ts) (hP : P nid) : Harvested date mid P ts' := by
  cases hd with
  | saveImage => exact harvested_saveImageCollect h hts hP
  | previewImage => exact harvested_previewImageCollect h hts hP
  | saveVideo => exact harvested_saveVideoCollect h hts hP
  | saveAudio => exact harvested_saveAudioCollect h hts hP
  | vhsVideoCombine => exact harvested_vhsCollect h hts hP

theorem harvested_collectLoop {prompt : List (String × Json)} {mid date : String}
    {P : String → Prop} :
    ∀ (outs : List (String × Json)) (ts ts' : List UploadTask),
      (∀ pr ∈ outs, P pr.1) →
      collectLoop prompt mid date outs ts = some ts' →
      Harvested date mid P ts → Harvested date mid P ts' := by
  intro outs
  induction outs with
  | nil =>
    intro ts ts' _ h hts
    cases Option.some.inj h
    exact hts
  | cons pr rest ih =>
    obtain ⟨nid, nout⟩ := pr
    intro ts ts' hP h hts
    have hPn : P nid := hP (nid, nout) (List.mem_cons_self _ _)
    have hPrest : ∀ pr ∈ rest, P pr.1 := fun pr hpr => hP pr (List.mem_cons_of_mem _ hpr)
    simp only [collectLoop] at h
    split at h
    · exact Option.noConfusion h
    · exact ih ts ts' hPrest h hts
    case h_3 hd hh =>
      split at h
      · exact Option.noConfusion h
      case h_2 ts1 hrun =>
        exact ih ts1 ts' hPrest h (harvested_runHandler hrun hts hPn)

/-- The full harvest satisfies the invariant: task `k` carries sequence
number `k` and its node id appears in the outputs mapping. -/
theorem harvested_collect_workflow_results {prompt outputs : List (String × Json)}
    {mid date : String} {ts : List UploadTask}
    (h : collect_workflow_results prompt outputs mid date = some ts) :
    Harvested date mid (fun nid => nid ∈ outputs.map Prod.fst) ts :=
  harvested_collectLoop outputs [] ts
    (fun pr hpr => List.mem_map.mpr ⟨pr, hpr, rfl⟩) h harvested_nil

/-- C2: contrary to the spec, `collect_workflow_results` never scans the
submitted graph: it iterates the engine history's `outputs` mapping only, so a
VHS_VideoCombine node absent from `outputs` contributes no Upload Task even
when its `save_output` input is truthy. `vhsPrompt` holds exactly such a node
("5", `save_output=true`, truthy `filename_prefix`), yet the harvest over empty
`outputs` yields no task at all. -/
theorem C2_counterexample :
    collect_workflow_results vhsPrompt [] "t1" "20240101" = some [] := rfl

/-- C2 (amended): every harvested Upload Task's node id is a key of the engine
`outputs` mapping — the harvest iterates `outputs` only and never scans the
submitted graph, so a VHS_VideoCombine node absent from `outputs` contributes
nothing regardless of `save_output`; it is only when such a node is present in
`outputs` (even with an empty output object) that the VHS fallback synthesises
the `prefix + "00001" + ext` task from the graph's inputs. -/
theorem C2_vhs_fallback_requires_outputs :
    (∀ (prompt outputs : List (String × Json)) (mid date : String) (ts : List UploadTask),
        collect_workflow_results prompt outputs mid date = some ts →
        ∀ t ∈ ts, t.node_id ∈ outputs.map Prod.fst) ∧
      collect_workflow_results vhsPrompt [("5", Json.obj [])] "t1" "20240101" =
        some [vhsSynthTask] := by
  constructor
  · intro prompt outputs mid date ts h t ht
    have hh := harvested_collect_workflow_results h
    obtain ⟨k, hget⟩ := List.mem_iff_get.mp ht
    have := (hh k.val k.isLt).2
    rw [show (⟨k.val, k.isLt⟩ : Fin ts.length) = k from rfl, hget] at this
    exact this
  · rfl

/-- C2 witness: the amended membership fact applied to the concrete VHS
harvest in which node "5" appears in `outputs` with an empty output object. -/
theorem C2_vhs_witness :
    vhsSynthTask.node_id ∈ ([("5", Json.obj [])].map Prod.fst) :=
  C2_vhs_fallback_requires_outputs.1 vhsPrompt [("5", Json.obj [])] "t1" "20240101"
    [vhsSynthTask] (by rfl) vhsSynthTask (List.mem_singleton.mpr rfl)

/-- C8: the destination paths of all Upload Tasks harvested for a job are
pairwise distinct — the task at position `k` carries the per-job sequence
number `k` (the digit block of its path is the decimal representation of `k`),
assigned monotonically at harvest time and never reused within the job. -/
theorem C8_unique_destination_paths (prompt outputs : List (String × Json))
    (mid date : String) (ts : List UploadTask)
    (h : collect_workflow_results prompt outputs mid date = some ts) :
    (ts.map (fun t => t.path)).Nodup ∧
      ∀ k (hk : k < ts.length),
        seqDigits date mid ((ts.get ⟨k, hk⟩).path) = (Nat.repr k).data := by
  have hh := harvested_collect_workflow_results h
  constructor
  · rw [List.nodup_iff_injective_get]
    intro i j hij
    have hi : (i : Nat) < ts.length := by
      have := i.isLt
      simpa using this
    have hj : (j : Nat) < ts.length := by
      have := j.isLt
      simpa using this
    have hpi := (hh i.val hi).1
    have hpj := (hh j.val hj).1
    have hpath : (ts.get ⟨i.val, hi⟩).path = (ts.get ⟨j.val, hj⟩).path := by
      simpa [List.get_eq_getElem, List.getElem_map] using hij
    exact Fin.ext (goodPath_inj (hpath ▸ hpi) hpj)
  · intro k hk
    obtain ⟨tag, ext, htag, hext, hp⟩ := (hh k hk).1
    rw [hp, seqDigits_mkPath date mid tag ext k htag hext, repr_data_eq_decDigits]

/-- C8 witness: the two-image SaveImage harvest yields pairwise distinct
destination paths. -/
theorem C8_witness :
    collect_workflow_results exPrompt exOutputs "t1" "20240101" = some exTasks ∧
      (exTasks.map (fun t => t.path)).Nodup :=
  ⟨rfl, (C8_unique_destination_paths exPrompt exOutputs "t1" "20240101" exTasks rfl).1⟩
